import Mathlib

/-!
# Verification of wc_model_gen submodel-generation procedures

A shallow embedding of the core generation and calibration routines of the
`wc_model_gen` repository, together with theorems checking the repository's
natural-language specification against the code.

Conventions of the embedding:
* Python strings are `String` (sequences, which are iterated character by
  character, are `List Char`).
* Python floats are idealised as `ℚ`; the float value `nan` (which arises
  from `numpy.median`/`numpy.mean` of an empty list and from unset float
  attributes) is modelled as `none` in an `Option ℚ`.
* Python dicts are association lists `List (String × α)` looked up with
  `alookup`, or, for the model's parameter table, a partial map
  `String → Option ParamData`.
* Human-readable comment strings that interpolate float values are modelled
  by the inductive `CommentTag` rather than by formatted strings.
-/

/-- Lookup in an association list, as Python `d[k]` / `k in d`. -/
def alookup {α : Type} : List (String × α) → String → Option α
  | [], _ => none
  | p :: ps, k => if p.1 = k then some p.2 else alookup ps k

/-- Insertion of one element into an ascending list of rationals. -/
def insertLe (x : ℚ) : List ℚ → List ℚ
  | [] => [x]
  | y :: ys => if x ≤ y then x :: y :: ys else y :: insertLe x ys

/-- Insertion sort, ascending; models the sort inside `numpy.median`. -/
def sortQ : List ℚ → List ℚ
  | [] => []
  | x :: xs => insertLe x (sortQ xs)

/-- `numpy.median`: middle element of the sorted list for odd length, mean of
the two middle elements for even length, and `nan` (modelled `none`) for an
empty list. -/
def medianQ (l : List ℚ) : Option ℚ :=
  if l.length = 0 then none
  else
    let s := sortQ l
    if l.length % 2 = 1 then some (s.getD (l.length / 2) 0)
    else some ((s.getD (l.length / 2 - 1) 0 + s.getD (l.length / 2) 0) / 2)

/-- `numpy.mean`: arithmetic mean, `nan` (modelled `none`) for an empty list. -/
def meanQ (l : List ℚ) : Option ℚ :=
  if l.length = 0 then none else some (l.sum / l.length)

section GenReactions

/-- The nucleotide-usage record stored in `gvar.transcript_ntp_usage`
(`rna_degradation.py`, lines 104-110). -/
structure NTPCount where
  A : Nat
  C : Nat
  G : Nat
  U : Nat
  len : Nat
deriving DecidableEq, Repr

/-- Count of each upper-case nucleotide character and of the length of a
transcript sequence: `seq.upper().count('A')`, ..., `len(seq)`. -/
def countNTP (seq : List Char) : NTPCount :=
  let u := seq.map Char.toUpper
  { A := u.count 'A', C := u.count 'C', G := u.count 'G', U := u.count 'U',
    len := seq.length }

/-- The data of a `wc_kb.eukaryote.TranscriptSpeciesType` consumed by
`RnaDegradationSubmodelGenerator.gen_reactions`: its id and name, the
compartment id of its first species (`rna_kb.species[0].compartment.id`) and
its sequence (`rna_kb.get_seq()`). -/
structure TranscriptKB where
  id : String
  name : String
  compartmentId : String
  seq : List Char
deriving DecidableEq, Repr

/-- `degradation_compartment` selection (`rna_degradation.py`, lines 85-91):
cytoplasm when the KB species' compartment id is `c`, mitochondrion
otherwise. -/
def degCompartment (compartmentId : String) : String :=
  if compartmentId = "c" then "c" else "m"

/-- The part of the model consulted by `gen_reactions` when looking for a
ribosome-binding-site species type: the map from a species-type id to the id
of that type's first species (`species[0]`). An id absent from the list
models `model.species_types.get_one(id=...)` returning `None`. -/
structure ModelEnv where
  riboBindingSites : List (String × String)
deriving DecidableEq, Repr

/-- One entry of `reaction.participants`: a species (by its full id, e.g.
`amp[c]`) and its stoichiometric coefficient. -/
structure Participant where
  species : String
  coefficient : Int
deriving DecidableEq, Repr

/-- The participant list built for the degradation reaction of one transcript
(`rna_degradation.py`, lines 112-134), given the nucleotide counts `ntp` used
for it and the degradation compartment. -/
def genDegradationReaction (env : ModelEnv) (row : Nat) (ntp : NTPCount)
    (rnaId : String) (comp : String) : List Participant :=
  let met := fun (m : String) => m ++ "[" ++ comp ++ "]"
  let lhs : List Participant :=
    [⟨rnaId ++ "[" ++ comp ++ "]", -1⟩,
     ⟨met "h2o", -((ntp.len : Int) - 1)⟩]
  let ribo : List Participant :=
    match alookup env.riboBindingSites (rnaId ++ "_ribosome_binding_site") with
    | some sid => [⟨sid, -(((ntp.len / row : Nat) : Int) + 1)⟩]
    | none => []
  let rhs : List Participant :=
    [⟨met "amp", (ntp.A : Int)⟩, ⟨met "cmp", (ntp.C : Int)⟩,
     ⟨met "gmp", (ntp.G : Int)⟩, ⟨met "ump", (ntp.U : Int)⟩,
     ⟨met "h", (ntp.len : Int) - 1⟩]
  lhs ++ ribo ++ rhs

/-- The sequence `gen_reactions` uses for a transcript that is not in the
global cache: the `rna_input_seq` option's entry when the id is a key there,
the knowledge-base sequence otherwise (`rna_degradation.py`, lines 100-103). -/
def effectiveSeq (rnaInputSeq : List (String × List Char)) (t : TranscriptKB) :
    List Char :=
  match alookup rnaInputSeq t.id with
  | some s => s
  | none => t.seq

/-- The cache step of `gen_reactions` (lines 97-110): a cached id keeps its
entry and yields the cached counts; an uncached id has its counts computed
from the effective sequence and stored. -/
def updateCache (cache : List (String × NTPCount))
    (rnaInputSeq : List (String × List Char)) (t : TranscriptKB) :
    NTPCount × List (String × NTPCount) :=
  match alookup cache t.id with
  | some c => (c, cache)
  | none =>
      let c := countNTP (effectiveSeq rnaInputSeq t)
      (c, cache ++ [(t.id, c)])

/-- Result of `RnaDegradationSubmodelGenerator.gen_reactions`: the generated
degradation reactions (reaction id with participant list, one per transcript,
in order) and the final state of `gvar.transcript_ntp_usage`. -/
structure GenReactionsResult where
  reactions : List (String × List Participant)
  cache : List (String × NTPCount)
deriving DecidableEq, Repr

/-- `RnaDegradationSubmodelGenerator.gen_reactions` (lines 54-141), threading
the global cache through the loop over the KB's transcripts. -/
def gen_reactions (env : ModelEnv) (rnaInputSeq : List (String × List Char))
    (row : Nat) : List TranscriptKB → List (String × NTPCount) →
    GenReactionsResult
  | [], cache => ⟨[], cache⟩
  | t :: ts, cache =>
      let comp := degCompartment t.compartmentId
      let step := updateCache cache rnaInputSeq t
      let parts := genDegradationReaction env row step.1 t.id comp
      let rest := gen_reactions env rnaInputSeq row ts step.2
      ⟨("degradation_" ++ t.id, parts) :: rest.reactions, rest.cache⟩

end GenReactions

section OptionsValidation

/-- The options dictionary handed to `RnaDegradationSubmodelGenerator`,
before validation; `none` models a key absent from the dict. -/
structure RnaDegOptionsIn where
  rna_input_seq : Option (List (String × List Char))
  beta : Option ℚ
  rna_exo_pair : Option (List (String × String))
  ribosome_occupancy_width : Option Nat
deriving DecidableEq, Repr

/-- The options dictionary after a successful
`clean_and_validate_options`, with every option present. -/
structure RnaDegOptionsOut where
  rna_input_seq : List (String × List Char)
  beta : ℚ
  rna_exo_pair : List (String × String)
  ribosome_occupancy_width : Nat
deriving DecidableEq, Repr

/-- `RnaDegradationSubmodelGenerator.clean_and_validate_options`
(`rna_degradation.py`, lines 36-52). -/
def clean_and_validate_options (o : RnaDegOptionsIn) :
    Except String RnaDegOptionsOut :=
  let rna_input_seq := o.rna_input_seq.getD []
  let beta := o.beta.getD 1
  match o.rna_exo_pair with
  | none => .error "The dictionary rna_exo_pair has not been provided"
  | some rna_exo_pair =>
      let row := o.ribosome_occupancy_width.getD 27
      .ok ⟨rna_input_seq, beta, rna_exo_pair, row⟩

end OptionsValidation

section MMRateLaw

/-- A compartment of the model, as consulted by the rate-law and calibration
code: id, human-readable name, `init_volume.mean`, `init_density.value`, and
the id of the volume function `init_density.function_expressions[0].function`. -/
structure CompartmentData where
  id : String
  name : String
  volumeMean : ℚ
  density : ℚ
  volumeFunctionId : String
deriving DecidableEq, Repr

/-- One reactant species of a reaction, with the data the generators read
from it: its species type id, its compartment, and the mean of its
`distribution_init_concentration`. -/
structure ReactantData where
  speciesTypeId : String
  compartment : CompartmentData
  mean : ℚ
deriving DecidableEq, Repr

/-- `wc_lang` species id, `Species.gen_id()`: `<species_type>[<compartment>]`. -/
def speciesGenId (s : ReactantData) : String :=
  s.speciesTypeId ++ "[" ++ s.compartment.id ++ "]"

/-- A `wc_lang.Parameter` as created by `MM_like_rate_law`: `value = none`
models the unset float attribute of the freshly created `k_cat` parameter. -/
structure Parameter where
  id : String
  value : Option ℚ
deriving DecidableEq, Repr

/-- A `wc_lang.RateLawExpression` as created by `MM_like_rate_law`: the
expression string, its parameters, its species (by id) and its observables
(by id). -/
structure RateLawExpression where
  expression : String
  parameters : List Parameter
  species : List String
  observables : List String
deriving DecidableEq, Repr

/-- The loop body accumulation of `MM_like_rate_law` (`utils.py`, lines
64-77): for each reactant, append the species, create and append the `K_m`
parameter, and append the Hill-equation term string. -/
def MM_loop (reactionId AvogadroId : String) (beta : ℚ) :
    List ReactantData → List Parameter × List String × List String
  | [] => ([], [], [])
  | s :: ss =>
      let kmId := "K_m_" ++ reactionId ++ "_" ++ s.speciesTypeId
      let g := speciesGenId s
      let term := "(" ++ g ++ " / (" ++ g ++ " + " ++ kmId ++ " * " ++
        AvogadroId ++ " * " ++ s.compartment.volumeFunctionId ++ "))"
      let rest := MM_loop reactionId AvogadroId beta ss
      (⟨kmId, some (beta * s.mean)⟩ :: rest.1, term :: rest.2.1, g :: rest.2.2)

/-- `MM_like_rate_law` (`utils.py`, lines 30-86): builds the
Michaelis-Menten-like rate-law expression for a reaction with the given
reactants and modifier observable, returning the rate law and its
parameter list. -/
def MM_like_rate_law (AvogadroId reactionId : String)
    (reactants : List ReactantData) (modifierId : String) (beta : ℚ) :
    RateLawExpression × List Parameter :=
  let kcat : Parameter := ⟨"k_cat_" ++ reactionId, none⟩
  let loop := MM_loop reactionId AvogadroId beta reactants
  let expression := kcat.id ++ " * " ++ modifierId ++ " * " ++
    String.intercalate " * " loop.2.1
  (⟨expression, kcat :: loop.1, loop.2.2, [modifierId]⟩, kcat :: loop.1)

end MMRateLaw

section Calibrate

/-- The human-readable `comments` attribute of a parameter, as written by
`calibrate_submodel`; float-interpolating format strings are modelled by
carrying their arguments. -/
inductive CommentTag where
  | empty : CommentTag
  | assumedBetaTimes : ℚ → String → String → CommentTag
  | zeroConcDefault : String → String → CommentTag
  | setToMedian : CommentTag
deriving DecidableEq, Repr

/-- The mutable attributes of a `wc_lang.Parameter` touched by
`calibrate_submodel`: `value` (with `none` for `nan`) and `comments`. -/
structure ParamData where
  value : Option ℚ
  comments : CommentTag
deriving DecidableEq, Repr

/-- The model's parameter table, `model.parameters`, as a partial map from
parameter id to its mutable data; `none` models an id with no parameter. -/
def ParamStore : Type := String → Option ParamData

/-- `model.parameters.get_one(id=i).value`, when the parameter exists. -/
def getValue (st : ParamStore) (i : String) : Option ℚ :=
  (st i).bind (fun d => d.value)

/-- `model.parameters.get_one(id=i).comments`, when the parameter exists. -/
def getComments (st : ParamStore) (i : String) : Option CommentTag :=
  (st i).map (fun d => d.comments)

/-- Assignment `p.value = v` on the parameter with id `i`; a no-op on ids
with no parameter (the Python code would have crashed earlier on those). -/
def setValue (st : ParamStore) (i : String) (v : ℚ) : ParamStore :=
  fun j => if j = i then (st i).map (fun d => { d with value := some v }) else st j

/-- The combined assignments `p.value = v; p.comments = c` with a possibly
`nan` (`none`) value, as in the median fallback. -/
def setVC (st : ParamStore) (i : String) (v : Option ℚ) (c : CommentTag) :
    ParamStore :=
  fun j => if j = i then (st i).map (fun _ => ⟨v, c⟩) else st j

/-- The binary64 value of Python's `math.log(2)`, as an exact rational. -/
def ln2 : ℚ := 6243314768165359 / 9007199254740992

/-- Modelled from the spec: `utils.calc_avg_deg_rate` is called by
`calibrate_submodel` but is not under `src/`; per the spec's calibration of
degradation kinetics from half-lives and the repository's tests
(`test_rna_degradation.py`, line 195: `math.log(2)/36000*10`), the average
degradation rate of a species is `ln 2 / half_life * mean_concentration`. -/
def calc_avg_deg_rate (mean_concentration half_life : ℚ) : ℚ :=
  ln2 / half_life * mean_concentration

/-- The per-reaction input data consumed by `calibrate_submodel`
(`rna_degradation.py`, lines 209-233): the reaction id, the mean initial
concentration of the modifier (exosome) species, the RNA reactant's mean
initial concentration and the transcript's half-life, the reaction's
reactants (`reaction.get_reactants()`), and the species appearing in the
reaction's Michaelis-Menten-like rate law (the reactants that were not
excluded from it). -/
structure CalibRxnInput where
  reactionId : String
  modifierMean : ℚ
  rnaMean : ℚ
  halfLife : ℚ
  reactants : List ReactantData
  rateLawSpecies : List ReactantData
deriving Repr

/-- The `K_m` parameter id used by the calibration code,
`'K_m_{}_{}'.format(reaction.id, species.species_type.id)`. -/
def kmParamId (reactionId speciesTypeId : String) : String :=
  "K_m_" ++ reactionId ++ "_" ++ speciesTypeId

/-- The `k_cat` parameter id, `'k_cat_{}'.format(reaction.id)`. -/
def kcatParamId (reactionId : String) : String :=
  "k_cat_" ++ reactionId

/-- The reactants loop of `calibrate_submodel` (lines 231-246): for each
reactant whose `K_m` parameter exists, set its value to
`beta * mean / Avogadro / volume` when the mean concentration is nonzero and
to `1e-05` (commenting that the concentration was zero) otherwise. -/
def kmUpdates (beta NA : ℚ) (reactionId : String) :
    ParamStore → List ReactantData → ParamStore
  | st, [] => st
  | st, s :: ss =>
      let i := kmParamId reactionId s.speciesTypeId
      let st' :=
        if (st i).isSome then
          if s.mean = 0 then
            setVC st i (some (1 / 100000))
              (.zeroConcDefault s.speciesTypeId s.compartment.name)
          else
            setVC st i (some (beta * s.mean / NA / s.compartment.volumeMean))
              (.assumedBetaTimes beta s.speciesTypeId s.compartment.name)
        else st
      kmUpdates beta NA reactionId st' ss

/-- Modelled from the spec: `utils.gen_michaelis_menten_like_rate_law` is
called by `gen_rate_laws` but is not under `src/`; per the spec's
Michaelis-Menten-like kinetics, the sibling `MM_like_rate_law` in
`src/wc_model_gen/utils.py` and the expressions asserted by
`test_rna_degradation.py` (lines 178-186), the generated expression is
`k_cat_<rxn> * <modifier> * Π (S / (S + K_m_<rxn>_<type> * Avogadro *
volume_<comp>))`.  This definition is its evaluation at the initial species
counts, as performed by `calibrate_submodel` (lines 252-259): species take
their mean initial counts, each compartment takes `init_volume.mean *
init_density.value`, so each volume function `c / density_c` evaluates to
`init_volume.mean * init_density.value / init_density.value`, and parameters
take their current values in the parameter table (a missing parameter value
is read as `0`, a case excluded by well-formedness hypotheses). -/
def evalRateLaw (NA : ℚ) (st : ParamStore) (r : CalibRxnInput) : ℚ :=
  ((getValue st (kcatParamId r.reactionId)).getD 0) * r.modifierMean *
    (r.rateLawSpecies.map (fun s =>
      let vol := s.compartment.volumeMean * s.compartment.density /
        s.compartment.density
      let km := (getValue st (kmParamId r.reactionId s.speciesTypeId)).getD 0
      s.mean / (s.mean + km * NA * vol))).prod

/-- The accumulator of the main loop of `calibrate_submodel`: the parameter
table, the list of determined `k_cat` values (`determined_kcat`) and the ids
of the undetermined `k_cat` parameters (`undetermined_model_kcat`). -/
structure CalibAcc where
  store : ParamStore
  determined : List ℚ
  undetermined : List String

/-- One iteration of the main loop of `calibrate_submodel` (lines 209-266)
for one transcript/reaction pair. -/
def calibStep (beta NA : ℚ) (acc : CalibAcc) (r : CalibRxnInput) : CalibAcc :=
  let st1 := kmUpdates beta NA r.reactionId acc.store r.reactants
  let averageRate := calc_avg_deg_rate r.rnaMean r.halfLife
  if averageRate = 0 then
    ⟨st1, acc.determined, acc.undetermined ++ [kcatParamId r.reactionId]⟩
  else
    let st2 := setValue st1 (kcatParamId r.reactionId) 1
    let ev := evalRateLaw NA st2 r
    if ev = 0 then
      ⟨st2, acc.determined, acc.undetermined ++ [kcatParamId r.reactionId]⟩
    else
      ⟨setValue st2 (kcatParamId r.reactionId) (averageRate / ev),
       acc.determined ++ [averageRate / ev], acc.undetermined⟩

/-- The main loop of `calibrate_submodel` over all transcript/reaction
pairs. -/
def calibPhase1 (beta NA : ℚ) (inputs : List CalibRxnInput)
    (st : ParamStore) : CalibAcc :=
  inputs.foldl (calibStep beta NA) ⟨st, [], []⟩

/-- The median fallback of `calibrate_submodel` (lines 268-271): every
undetermined `k_cat` parameter is assigned the median of the determined
values (`nan`, i.e. `none`, when none were determined) with a comment that
it was set to the median. -/
def calibPhase2 (med : Option ℚ) (st : ParamStore) :
    List String → ParamStore
  | [] => st
  | i :: is => calibPhase2 med (setVC st i med .setToMedian) is

/-- `RnaDegradationSubmodelGenerator.calibrate_submodel`
(`rna_degradation.py`, lines 189-273): the final parameter table. -/
def calibrate_submodel (beta NA : ℚ) (inputs : List CalibRxnInput)
    (st : ParamStore) : ParamStore :=
  let acc := calibPhase1 beta NA inputs st
  calibPhase2 (medianQ acc.determined) acc.store acc.undetermined

/-- The value the rate law of reaction `i` is evaluated at during
calibration: the parameter table holds the results of the first `i`
iterations, then reaction `i`'s `K_m` updates, then its `k_cat` set to 1. -/
def rateLawEvalAt (beta NA : ℚ) (inputs : List CalibRxnInput)
    (st : ParamStore) (i : Nat) (r : CalibRxnInput) : ℚ :=
  let before := (calibPhase1 beta NA (inputs.take i) st).store
  let st1 := kmUpdates beta NA r.reactionId before r.reactants
  evalRateLaw NA (setValue st1 (kcatParamId r.reactionId) 1) r

end Calibrate

section InitalizeModelKB

/-- The data of a knowledge-base `RnaSpeciesType` / `ProteinSpeciesType`
read and (despite the KB being documented as read-only) written by
`InitalizeModel.gen_rna` / `gen_protein`: the id and the `half_life`
attribute, with `none` modelling a `nan` float. -/
structure KBSpeciesType where
  id : String
  half_life : Option ℚ
deriving DecidableEq, Repr

/-- The half-lives collected for averaging (`initalize_model.py`, lines
153-159): those that are floats, nonzero and not `nan`. -/
def validHalfLives (kb : List KBSpeciesType) : List ℚ :=
  (kb.filterMap (fun s => s.half_life)).filter (fun h => ¬ h = 0)

/-- The effect of `InitalizeModel.gen_rna` (`initalize_model.py`, lines
146-169) on the knowledge base: every species type whose `half_life` is
`nan` or `0` has its `half_life` attribute overwritten with the average of
the valid half-lives (the model-side species creation is not modelled, as it
does not touch the KB). -/
def gen_rna (kb : List KBSpeciesType) : List KBSpeciesType :=
  let avg := meanQ (validHalfLives kb)
  kb.map (fun s =>
    match s.half_life with
    | none => { s with half_life := avg }
    | some h => if h = 0 then { s with half_life := avg } else s)

/-- The effect of `InitalizeModel.gen_protein` (`initalize_model.py`, lines
171-193) on the knowledge base; the half-life averaging and overwriting
logic is identical to `gen_rna`'s. -/
def gen_protein (kb : List KBSpeciesType) : List KBSpeciesType :=
  let avg := meanQ (validHalfLives kb)
  kb.map (fun s =>
    match s.half_life with
    | none => { s with half_life := avg }
    | some h => if h = 0 then { s with half_life := avg } else s)

end InitalizeModelKB

section Orchestrator

/-- The component generators named by
`ProkaryoteModelGenerator.DEFAULT_COMPONENT_GENERATORS` (`core.py`). -/
inductive ComponentGenerator where
  | initalizeModel : ComponentGenerator
  | transcriptionSubmodelGenerator : ComponentGenerator
  | rnaDegradationSubmodelGenerator : ComponentGenerator
  | translationSubmodelGenerator : ComponentGenerator
  | proteinDegradationSubmodelGenerator : ComponentGenerator
  | metabolismSubmodelGenerator : ComponentGenerator
deriving DecidableEq, Repr

/-- `ProkaryoteModelGenerator.DEFAULT_COMPONENT_GENERATORS` (`core.py`,
lines 21-28), in source order. -/
def DEFAULT_COMPONENT_GENERATORS : List ComponentGenerator :=
  [.initalizeModel,
   .transcriptionSubmodelGenerator,
   .rnaDegradationSubmodelGenerator,
   .translationSubmodelGenerator,
   .proteinDegradationSubmodelGenerator,
   .metabolismSubmodelGenerator]

/-- Modelled from the spec: the orchestrator `ModelGenerator.run` that
`ProkaryoteModelGenerator` inherits is not under `src/`; per the spec
(section 2), the component generators are "invoked in sequence by an
orchestrator, each consuming a knowledge base and a shared mutable model
object".  `effect g` is the mutation generator `g` performs on the shared
model state of type `M`. -/
def ModelGenerator_run {M : Type} (effect : ComponentGenerator → M → M)
    (m : M) : M :=
  DEFAULT_COMPONENT_GENERATORS.foldl (fun acc g => effect g acc) m

end Orchestrator

/-! ## Helper lemmas -/

theorem alookup_append_left {α : Type} (l l' : List (String × α)) (k : String)
    (v : α) (h : alookup l k = some v) : alookup (l ++ l') k = some v := by
  induction l with
  | nil => simp [alookup] at h
  | cons p ps ih =>
      by_cases hp : p.1 = k
      · simpa [alookup, hp] using h
      · simp only [alookup, hp, if_false] at h ⊢
        exact ih h

theorem alookup_append_right {α : Type} (l l' : List (String × α)) (k : String)
    (h : alookup l k = none) : alookup (l ++ l') k = alookup l' k := by
  induction l with
  | nil => simp [alookup]
  | cons p ps ih =>
      by_cases hp : p.1 = k
      · simp [alookup, hp] at h
      · simp only [alookup, hp, if_false] at h ⊢
        exact ih h

theorem count_acgu (u : List Char)
    (h : ∀ c ∈ u, c = 'A' ∨ c = 'C' ∨ c = 'G' ∨ c = 'U') :
    u.count 'A' + u.count 'C' + u.count 'G' + u.count 'U' = u.length := by
  induction u with
  | nil => simp
  | cons c cs ih =>
      have hc := h c (List.mem_cons_self c cs)
      have hcs := ih (fun x hx => h x (List.mem_cons_of_mem c hx))
      rcases hc with hc | hc | hc | hc <;> subst hc <;>
        simp [List.count_cons] <;> omega

theorem mem_insertLe (x a : ℚ) (l : List ℚ) :
    a ∈ insertLe x l ↔ a = x ∨ a ∈ l := by
  induction l with
  | nil => simp [insertLe]
  | cons y ys ih =>
      by_cases hx : x ≤ y
      · simp [insertLe, hx]
      · simp [insertLe, hx, ih]
        tauto

theorem length_insertLe (x : ℚ) (l : List ℚ) :
    (insertLe x l).length = l.length + 1 := by
  induction l with
  | nil => simp [insertLe]
  | cons y ys ih =>
      by_cases hx : x ≤ y
      · simp [insertLe, hx]
      · simp [insertLe, hx, ih]

theorem mem_sortQ (a : ℚ) (l : List ℚ) : a ∈ sortQ l ↔ a ∈ l := by
  induction l with
  | nil => simp [sortQ]
  | cons x xs ih => simp [sortQ, mem_insertLe, ih]

theorem length_sortQ (l : List ℚ) : (sortQ l).length = l.length := by
  induction l with
  | nil => simp [sortQ]
  | cons x xs ih => simp [sortQ, length_insertLe, ih]

theorem getD_mem (l : List ℚ) (i : Nat) (h : i < l.length) : l.getD i 0 ∈ l := by
  induction l generalizing i with
  | nil => simp at h
  | cons x xs ih =>
      cases i with
      | zero => simp
      | succ n =>
          have := ih n (by simpa using Nat.lt_of_succ_lt_succ h)
          simp [List.getD_cons_succ]
          right
          simpa using this

theorem gen_reactions_cache_mono (env : ModelEnv)
    (ris : List (String × List Char)) (row : Nat) (ts : List TranscriptKB)
    (cache : List (String × NTPCount)) (k : String) (v : NTPCount)
    (h : alookup cache k = some v) :
    alookup (gen_reactions env ris row ts cache).cache k = some v := by
  induction ts generalizing cache with
  | nil => simpa [gen_reactions]
  | cons t ts ih =>
      simp only [gen_reactions]
      apply ih
      unfold updateCache
      cases hc : alookup cache t.id with
      | some c => simpa
      | none => exact alookup_append_left _ _ _ _ h

theorem gen_reactions_cache_none (env : ModelEnv)
    (ris : List (String × List Char)) (row : Nat) (ts : List TranscriptKB)
    (cache : List (String × NTPCount)) (k : String)
    (h : alookup cache k = none) (hts : ∀ t ∈ ts, t.id ≠ k) :
    alookup (gen_reactions env ris row ts cache).cache k = none := by
  induction ts generalizing cache with
  | nil => simpa [gen_reactions]
  | cons t ts ih =>
      simp only [gen_reactions]
      apply ih
      · unfold updateCache
        cases hc : alookup cache t.id with
        | some c => simpa
        | none =>
            rw [alookup_append_right _ _ _ h]
            have : t.id ≠ k := hts t (List.mem_cons_self t ts)
            simp [alookup, this]
      · exact fun t' ht' => hts t' (List.mem_cons_of_mem t ht')

theorem gen_reactions_cache_isSome (env : ModelEnv)
    (ris : List (String × List Char)) (row : Nat) (ts : List TranscriptKB)
    (cache : List (String × NTPCount)) (t : TranscriptKB) (ht : t ∈ ts) :
    (alookup (gen_reactions env ris row ts cache).cache t.id).isSome := by
  induction ts generalizing cache with
  | nil => simp at ht
  | cons t0 ts ih =>
      simp only [gen_reactions]
      rcases List.mem_cons.mp ht with rfl | ht'
      · have : ∃ c, alookup (updateCache cache ris t).2 t.id = some c := by
          unfold updateCache
          cases hc : alookup cache t.id with
          | some c => exact ⟨c, by simpa⟩
          | none =>
              refine ⟨countNTP (effectiveSeq ris t), ?_⟩
              rw [alookup_append_right _ _ _ hc]
              simp [alookup]
        obtain ⟨c, hc⟩ := this
        rw [gen_reactions_cache_mono env ris row ts _ t.id c hc]
        rfl
      · exact ih _ ht'

theorem gen_reactions_cache_new (env : ModelEnv)
    (ris : List (String × List Char)) (row : Nat) (ts : List TranscriptKB)
    (cache : List (String × NTPCount))
    (hnd : (ts.map (fun t => t.id)).Nodup) (t : TranscriptKB) (ht : t ∈ ts)
    (h : alookup cache t.id = none) :
    alookup (gen_reactions env ris row ts cache).cache t.id =
      some (countNTP (effectiveSeq ris t)) := by
  induction ts generalizing cache with
  | nil => simp at ht
  | cons t0 ts ih =>
      simp only [gen_reactions]
      rcases List.mem_cons.mp ht with rfl | ht'
      · have hstep : alookup (updateCache cache ris t).2 t.id =
            some (countNTP (effectiveSeq ris t)) := by
          unfold updateCache
          rw [h]
          rw [alookup_append_right _ _ _ h]
          simp [alookup]
        exact gen_reactions_cache_mono env ris row ts _ t.id _ hstep
      · have hne : t0.id ≠ t.id := by
          have h0 : t0.id ∉ ts.map (fun t => t.id) := (List.nodup_cons.mp hnd).1
          intro he
          exact h0 (he ▸ List.mem_map_of_mem (fun t => t.id) ht')
        have hstep : alookup (updateCache cache ris t0).2 t.id = none := by
          unfold updateCache
          cases hc : alookup cache t0.id with
          | some c => simpa
          | none =>
              rw [alookup_append_right _ _ _ h]
              simp [alookup, hne]
        exact ih _ (List.nodup_cons.mp hnd).2 ht' hstep

theorem gen_reactions_length (env : ModelEnv)
    (ris : List (String × List Char)) (row : Nat) (ts : List TranscriptKB)
    (cache : List (String × NTPCount)) :
    (gen_reactions env ris row ts cache).reactions.length = ts.length := by
  induction ts generalizing cache with
  | nil => simp [gen_reactions]
  | cons t ts ih => simp [gen_reactions, ih]

theorem gen_reactions_get (env : ModelEnv)
    (ris : List (String × List Char)) (row : Nat) (ts : List TranscriptKB)
    (cache : List (String × NTPCount)) (i : Nat) (h : i < ts.length) :
    (gen_reactions env ris row ts cache).reactions[i]? =
      some ("degradation_" ++ ts[i].id,
        genDegradationReaction env row
          (updateCache (gen_reactions env ris row (ts.take i) cache).cache
            ris ts[i]).1
          ts[i].id (degCompartment ts[i].compartmentId)) := by
  induction ts generalizing cache i with
  | nil => simp at h
  | cons t ts ih =>
      cases i with
      | zero => simp [gen_reactions]
      | succ n =>
          have hn : n < ts.length := Nat.lt_of_succ_lt_succ h
          simp only [gen_reactions, List.getElem?_cons_succ, List.take_succ_cons,
            List.getElem_cons_succ]
          exact ih _ n hn

theorem MM_loop_eq (rid aid : String) (beta : ℚ) (l : List ReactantData) :
    MM_loop rid aid beta l =
      (l.map (fun s =>
         (⟨kmParamId rid s.speciesTypeId, some (beta * s.mean)⟩ : Parameter)),
       l.map (fun s =>
         "(" ++ speciesGenId s ++ " / (" ++ speciesGenId s ++ " + " ++
           kmParamId rid s.speciesTypeId ++ " * " ++ aid ++ " * " ++
           s.compartment.volumeFunctionId ++ "))"),
       l.map speciesGenId) := by
  induction l with
  | nil => rfl
  | cons s ss ih => simp [MM_loop, ih, kmParamId]

theorem medianQ_nonneg (l : List ℚ) (h : ∀ x ∈ l, 0 ≤ x) (v : ℚ)
    (hv : medianQ l = some v) : 0 ≤ v := by
  by_cases hl : l.length = 0
  · simp [medianQ, hl] at hv
  · have hs : ∀ x ∈ sortQ l, 0 ≤ x := fun x hx => h x ((mem_sortQ x l).mp hx)
    have hpos : 0 < l.length := Nat.pos_of_ne_zero hl
    have h1 : l.length / 2 < (sortQ l).length := by
      rw [length_sortQ]; exact Nat.div_lt_of_lt_mul (by omega)
    have h2 : l.length / 2 - 1 < (sortQ l).length := by
      rw [length_sortQ]; omega
    by_cases hodd : l.length % 2 = 1
    · simp only [medianQ, hl, if_false, hodd, if_true, Option.some_inj] at hv
      subst hv
      exact hs _ (getD_mem _ _ h1)
    · simp only [medianQ, hl, if_false, hodd, Option.some_inj] at hv
      subst hv
      have a1 := hs _ (getD_mem _ _ h2)
      have a2 := hs _ (getD_mem _ _ h1)
      positivity

theorem nodup_ids_take_ne (ts : List TranscriptKB)
    (hnd : (ts.map (fun t => t.id)).Nodup) (i : Nat) (h : i < ts.length) :
    ∀ t ∈ ts.take i, t.id ≠ ts[i].id := by
  intro t ht he
  obtain ⟨j, hj, hget⟩ := List.mem_iff_getElem.mp ht
  have hjlen : j < ts.length := by
    simp [List.length_take] at hj
    omega
  have hji : j < i := by
    simp [List.length_take] at hj
    omega
  have hts : ts[j] = t := by
    rw [← hget]
    simp [List.getElem_take]
  have hjm : j < (ts.map (fun t => t.id)).length := by simpa using hjlen
  have him : i < (ts.map (fun t => t.id)).length := by simpa using h
  have hmap : (ts.map (fun t => t.id))[j] = (ts.map (fun t => t.id))[i] := by
    simp only [List.getElem_map]
    rw [hts, he]
  have := (hnd.getElem_inj_iff).mp hmap
  omega

theorem gen_reactions_get_fresh (env : ModelEnv)
    (ris : List (String × List Char)) (row : Nat) (ts : List TranscriptKB)
    (hnd : (ts.map (fun t => t.id)).Nodup) (i : Nat) (h : i < ts.length) :
    (gen_reactions env ris row ts []).reactions[i]? =
      some ("degradation_" ++ ts[i].id,
        genDegradationReaction env row (countNTP (effectiveSeq ris ts[i]))
          ts[i].id (degCompartment ts[i].compartmentId)) := by
  rw [gen_reactions_get env ris row ts [] i h]
  have hnone : alookup (gen_reactions env ris row (ts.take i) []).cache
      ts[i].id = none := by
    apply gen_reactions_cache_none
    · rfl
    · exact nodup_ids_take_ne ts hnd i h
  unfold updateCache
  rw [hnone]

theorem setValue_apply_ne (st : ParamStore) (i j : String) (v : ℚ)
    (h : j ≠ i) : setValue st i v j = st j := by
  simp [setValue, h]

theorem setVC_apply_ne (st : ParamStore) (i j : String) (v : Option ℚ)
    (c : CommentTag) (h : j ≠ i) : setVC st i v c j = st j := by
  simp [setVC, h]

theorem setValue_apply_self (st : ParamStore) (i : String) (v : ℚ) :
    setValue st i v i = (st i).map (fun d => { d with value := some v }) := by
  simp [setValue]

theorem setVC_apply_self (st : ParamStore) (i : String) (v : Option ℚ)
    (c : CommentTag) : setVC st i v c i = (st i).map (fun _ => ⟨v, c⟩) := by
  simp [setVC]

theorem setValue_isSome (st : ParamStore) (i j : String) (v : ℚ) :
    ((setValue st i v) j).isSome = (st j).isSome := by
  by_cases h : j = i
  · subst h
    cases hj : st j <;> simp [setValue, hj]
  · simp [setValue, h]

theorem setVC_isSome (st : ParamStore) (i j : String) (v : Option ℚ)
    (c : CommentTag) : ((setVC st i v c) j).isSome = (st j).isSome := by
  by_cases h : j = i
  · subst h
    cases hj : st j <;> simp [setVC, hj]
  · simp [setVC, h]

theorem getValue_setValue_self_isSome (st : ParamStore) (i : String) (v : ℚ)
    (h : (st i).isSome) : getValue (setValue st i v) i = some v := by
  cases hi : st i with
  | none => simp [hi] at h
  | some d => simp [getValue, setValue, hi]

theorem getValue_congr (st st' : ParamStore) (j : String) (h : st' j = st j) :
    getValue st' j = getValue st j := by
  simp [getValue, h]

theorem getComments_congr (st st' : ParamStore) (j : String)
    (h : st' j = st j) : getComments st' j = getComments st j := by
  simp [getComments, h]

theorem getValue_setVC_self (st : ParamStore) (i : String) (v : Option ℚ)
    (c : CommentTag) :
    getValue (setVC st i v c) i = (st i).bind (fun _ => v) := by
  cases h : st i <;> simp [getValue, setVC, h]

theorem getComments_setVC_self (st : ParamStore) (i : String) (v : Option ℚ)
    (c : CommentTag) :
    getComments (setVC st i v c) i = (st i).map (fun _ => c) := by
  cases h : st i <;> simp [getComments, setVC, h]

theorem km_ne_kcat (a b c : String) : kmParamId a b ≠ kcatParamId c := by
  intro h
  have hd := congrArg String.data h
  simp [kmParamId, kcatParamId, String.data_append] at hd

theorem mem_take_getElem {α : Type} (l : List α) (i : Nat) (t : α)
    (ht : t ∈ l.take i) : ∃ j, ∃ hj : j < l.length, j < i ∧ l[j] = t := by
  obtain ⟨k, hk, hget⟩ := List.mem_iff_getElem.mp ht
  have hk' : k < i ∧ k < l.length := by
    simp [List.length_take] at hk
    omega
  refine ⟨k, hk'.2, hk'.1, ?_⟩
  rw [← hget]
  simp [List.getElem_take]

theorem mem_drop_getElem {α : Type} (l : List α) (i : Nat) (t : α)
    (ht : t ∈ l.drop i) : ∃ j, ∃ hj : j < l.length, i ≤ j ∧ l[j] = t := by
  obtain ⟨k, hk, hget⟩ := List.mem_iff_getElem.mp ht
  refine ⟨i + k, by simp at hk; omega, by omega, ?_⟩
  rw [← hget, List.getElem_drop]

theorem foldl_take_drop {α β : Type} (f : α → β → α) (a : α) (l : List β)
    (i : Nat) (h : i < l.length) :
    l.foldl f a = (l.drop (i + 1)).foldl f (f ((l.take i).foldl f a) l[i]) := by
  conv_lhs => rw [← List.take_append_drop i l]
  rw [List.foldl_append, List.drop_eq_getElem_cons h]
  rfl

theorem kmUpdates_apply_ne (beta NA : ℚ) (rid : String)
    (l : List ReactantData) (st : ParamStore) (j : String)
    (hj : ∀ s ∈ l, j ≠ kmParamId rid s.speciesTypeId) :
    kmUpdates beta NA rid st l j = st j := by
  induction l generalizing st with
  | nil => rfl
  | cons s ss ih =>
      have hs := hj s (List.mem_cons_self s ss)
      simp only [kmUpdates]
      rw [ih _ (fun s' h' => hj s' (List.mem_cons_of_mem s h'))]
      split
      · split <;> exact setVC_apply_ne _ _ _ _ _ hs
      · rfl

theorem kmUpdates_isSome (beta NA : ℚ) (rid : String)
    (l : List ReactantData) (st : ParamStore) (j : String) :
    ((kmUpdates beta NA rid st l) j).isSome = (st j).isSome := by
  induction l generalizing st with
  | nil => rfl
  | cons s ss ih =>
      simp only [kmUpdates]
      rw [ih]
      split
      · split <;> exact setVC_isSome _ _ _ _ _
      · rfl

theorem kmUpdates_apply_target (beta NA : ℚ) (rid : String)
    (l : List ReactantData) (st : ParamStore) (s : ReactantData) (hs : s ∈ l)
    (hdist : ∀ s' ∈ l, s' ≠ s →
      kmParamId rid s'.speciesTypeId ≠ kmParamId rid s.speciesTypeId)
    (hsome : (st (kmParamId rid s.speciesTypeId)).isSome) :
    kmUpdates beta NA rid st l (kmParamId rid s.speciesTypeId) =
      some (if s.mean = 0 then
        ⟨some (1 / 100000),
          .zeroConcDefault s.speciesTypeId s.compartment.name⟩
      else
        ⟨some (beta * s.mean / NA / s.compartment.volumeMean),
          .assumedBetaTimes beta s.speciesTypeId s.compartment.name⟩) := by
  induction l generalizing st with
  | nil => cases hs
  | cons s0 ss ih =>
      simp only [kmUpdates]
      by_cases hmem : s ∈ ss
      · refine ih _ hmem (fun s' h' hne =>
          hdist s' (List.mem_cons_of_mem s0 h') hne) ?_
        split
        · split <;> rw [setVC_isSome] <;> exact hsome
        · exact hsome
      · have h0 : s0 = s := by
          rcases List.mem_cons.mp hs with h | h
          · exact h.symm
          · exact absurd h hmem
        subst h0
        rw [kmUpdates_apply_ne beta NA rid ss _ _ (fun s' h' => by
          have hne : s' ≠ s0 := fun he => hmem (he ▸ h')
          exact (hdist s' (List.mem_cons_of_mem s0 h') hne).symm)]
        rw [if_pos hsome]
        obtain ⟨d, hd⟩ := Option.isSome_iff_exists.mp hsome
        by_cases hm : s0.mean = 0
        · rw [if_pos hm, setVC_apply_self, hd, if_pos hm]
          rfl
        · rw [if_neg hm, setVC_apply_self, hd, if_neg hm]
          rfl

theorem kmUpdates_nonneg_pres (beta NA : ℚ) (rid : String)
    (l : List ReactantData) (st : ParamStore)
    (hbeta : 0 ≤ beta) (hNA : 0 ≤ NA)
    (hl : ∀ s ∈ l, 0 ≤ s.mean ∧ 0 ≤ s.compartment.volumeMean) (j : String)
    (hst : ∀ v, getValue st j = some v → 0 ≤ v) :
    ∀ v, getValue (kmUpdates beta NA rid st l) j = some v → 0 ≤ v := by
  induction l generalizing st with
  | nil => exact hst
  | cons s ss ih =>
      simp only [kmUpdates]
      refine ih _ (fun s' h' => hl s' (List.mem_cons_of_mem s h')) ?_
      intro v hv
      by_cases hj : j = kmParamId rid s.speciesTypeId
      · subst hj
        split at hv
        · split at hv
          · rw [getValue_setVC_self] at hv
            cases hstj : st (kmParamId rid s.speciesTypeId) with
            | none => rw [hstj] at hv; cases hv
            | some d =>
                rw [hstj] at hv
                simp at hv
                subst hv
                norm_num
          · rw [getValue_setVC_self] at hv
            cases hstj : st (kmParamId rid s.speciesTypeId) with
            | none => rw [hstj] at hv; cases hv
            | some d =>
                rw [hstj] at hv
                simp at hv
                subst hv
                have hm := hl s (List.mem_cons_self s ss)
                exact div_nonneg (div_nonneg (mul_nonneg hbeta hm.1) hNA) hm.2
        · exact hst v hv
      · split at hv
        · split at hv <;>
            rw [getValue_congr _ _ _ (setVC_apply_ne _ _ _ _ _ hj)] at hv <;>
            exact hst v hv
        · exact hst v hv

theorem kmUpdates_nonneg_own (beta NA : ℚ) (rid : String)
    (l : List ReactantData) (st : ParamStore)
    (hbeta : 0 ≤ beta) (hNA : 0 ≤ NA)
    (hl : ∀ s ∈ l, 0 ≤ s.mean ∧ 0 ≤ s.compartment.volumeMean)
    (s : ReactantData) (hs : s ∈ l) :
    ∀ v, getValue (kmUpdates beta NA rid st l)
      (kmParamId rid s.speciesTypeId) = some v → 0 ≤ v := by
  induction l generalizing st with
  | nil => cases hs
  | cons s0 ss ih =>
      simp only [kmUpdates]
      by_cases hmem : s ∈ ss
      · exact ih _ (fun s' h' => hl s' (List.mem_cons_of_mem s0 h')) hmem
      · have h0 : s0 = s := by
          rcases List.mem_cons.mp hs with h | h
          · exact h.symm
          · exact absurd h hmem
        subst h0
        refine kmUpdates_nonneg_pres beta NA rid ss _ hbeta hNA
          (fun s' h' => hl s' (List.mem_cons_of_mem s0 h')) _ ?_
        intro v hv
        split at hv
        · split at hv
          · rw [getValue_setVC_self] at hv
            cases hstj : st (kmParamId rid s0.speciesTypeId) with
            | none => rw [hstj] at hv; cases hv
            | some d =>
                rw [hstj] at hv
                simp at hv
                subst hv
                norm_num
          · rw [getValue_setVC_self] at hv
            cases hstj : st (kmParamId rid s0.speciesTypeId) with
            | none => rw [hstj] at hv; cases hv
            | some d =>
                rw [hstj] at hv
                simp at hv
                subst hv
                have hm := hl s0 (List.mem_cons_self s0 ss)
                exact div_nonneg (div_nonneg (mul_nonneg hbeta hm.1) hNA) hm.2
        · rename_i hnotsome
          have hnone : getValue st (kmParamId rid s0.speciesTypeId) = none := by
            simp only [getValue]
            cases hstj : st (kmParamId rid s0.speciesTypeId) with
            | none => rfl
            | some d => rw [hstj] at hnotsome; simp at hnotsome
          rw [hnone] at hv
          cases hv

theorem getValue_setValue_self (st : ParamStore) (i : String) (v : ℚ) :
    getValue (setValue st i v) i = (st i).map (fun _ => v) := by
  cases h : st i <;> simp [getValue, setValue, h]

theorem ln2_nonneg : (0 : ℚ) ≤ ln2 := by norm_num [ln2]

theorem calc_avg_deg_rate_nonneg (c hl : ℚ) (hc : 0 ≤ c) (hhl : 0 ≤ hl) :
    0 ≤ calc_avg_deg_rate c hl :=
  mul_nonneg (div_nonneg ln2_nonneg hhl) hc

theorem evalRateLaw_nonneg_calib (beta NA : ℚ) (st : ParamStore)
    (r : CalibRxnInput) (hbeta : 0 ≤ beta) (hNA : 0 ≤ NA)
    (hmod : 0 ≤ r.modifierMean)
    (hreact : ∀ s ∈ r.reactants, 0 ≤ s.mean ∧ 0 ≤ s.compartment.volumeMean)
    (hrls : ∀ s ∈ r.rateLawSpecies, 0 ≤ s.mean ∧ 0 ≤ s.compartment.density)
    (hsub : ∀ s ∈ r.rateLawSpecies, s ∈ r.reactants) :
    0 ≤ evalRateLaw NA
      (setValue (kmUpdates beta NA r.reactionId st r.reactants)
        (kcatParamId r.reactionId) 1) r := by
  simp only [evalRateLaw]
  refine mul_nonneg (mul_nonneg ?_ hmod) ?_
  · rw [getValue_setValue_self]
    cases h : kmUpdates beta NA r.reactionId st r.reactants
        (kcatParamId r.reactionId) <;> simp
  · apply List.prod_nonneg
    intro x hx
    obtain ⟨s, hsmem, rfl⟩ := List.mem_map.mp hx
    have hkm : 0 ≤ (getValue
        (setValue (kmUpdates beta NA r.reactionId st r.reactants)
          (kcatParamId r.reactionId) 1)
        (kmParamId r.reactionId s.speciesTypeId)).getD 0 := by
      rw [getValue_congr _ _ _ (setValue_apply_ne _ _ _ _
        (km_ne_kcat r.reactionId s.speciesTypeId r.reactionId))]
      cases h : getValue (kmUpdates beta NA r.reactionId st r.reactants)
          (kmParamId r.reactionId s.speciesTypeId) with
      | none => simp
      | some w =>
          simpa using kmUpdates_nonneg_own beta NA r.reactionId r.reactants
            st hbeta hNA hreact s (hsub s hsmem) w h
    have hvol : 0 ≤ s.compartment.volumeMean * s.compartment.density /
        s.compartment.density :=
      div_nonneg
        (mul_nonneg (hreact s (hsub s hsmem)).2 (hrls s hsmem).2)
        (hrls s hsmem).2
    exact div_nonneg (hrls s hsmem).1
      (add_nonneg (hrls s hsmem).1
        (mul_nonneg (mul_nonneg hkm hNA) hvol))

theorem calibStep_isSome (beta NA : ℚ) (acc : CalibAcc) (r : CalibRxnInput)
    (j : String) :
    (((calibStep beta NA acc r).store) j).isSome = ((acc.store) j).isSome := by
  simp only [calibStep]
  split
  · exact kmUpdates_isSome _ _ _ _ _ _
  · split
    · rw [setValue_isSome, kmUpdates_isSome]
    · rw [setValue_isSome, setValue_isSome, kmUpdates_isSome]

theorem calibStep_apply_frame (beta NA : ℚ) (acc : CalibAcc)
    (r : CalibRxnInput) (j : String)
    (h1 : ∀ s ∈ r.reactants, j ≠ kmParamId r.reactionId s.speciesTypeId)
    (h2 : j ≠ kcatParamId r.reactionId) :
    (calibStep beta NA acc r).store j = acc.store j := by
  simp only [calibStep]
  split
  · exact kmUpdates_apply_ne _ _ _ _ _ _ h1
  · split
    · exact (setValue_apply_ne _ _ _ _ h2).trans
        (kmUpdates_apply_ne _ _ _ _ _ _ h1)
    · exact (setValue_apply_ne _ _ _ _ h2).trans
        ((setValue_apply_ne _ _ _ _ h2).trans
          (kmUpdates_apply_ne _ _ _ _ _ _ h1))

theorem foldl_calibStep_frame (beta NA : ℚ) (rs : List CalibRxnInput)
    (acc : CalibAcc) (j : String)
    (h : ∀ r ∈ rs, (∀ s ∈ r.reactants,
        j ≠ kmParamId r.reactionId s.speciesTypeId) ∧
      j ≠ kcatParamId r.reactionId) :
    ((rs.foldl (calibStep beta NA) acc).store) j = acc.store j := by
  induction rs generalizing acc with
  | nil => rfl
  | cons r rs ih =>
      rw [List.foldl_cons,
        ih _ (fun r' h' => h r' (List.mem_cons_of_mem r h'))]
      exact calibStep_apply_frame beta NA acc r j
        (h r (List.mem_cons_self r rs)).1 (h r (List.mem_cons_self r rs)).2

theorem foldl_calibStep_isSome (beta NA : ℚ) (rs : List CalibRxnInput)
    (acc : CalibAcc) (j : String) :
    (((rs.foldl (calibStep beta NA) acc).store) j).isSome =
      ((acc.store) j).isSome := by
  induction rs generalizing acc with
  | nil => rfl
  | cons r rs ih => rw [List.foldl_cons, ih, calibStep_isSome]

theorem calibStep_undetermined (beta NA : ℚ) (acc : CalibAcc)
    (r : CalibRxnInput) :
    (calibStep beta NA acc r).undetermined = acc.undetermined ∨
    (calibStep beta NA acc r).undetermined =
      acc.undetermined ++ [kcatParamId r.reactionId] := by
  simp only [calibStep]
  split
  · right; rfl
  · split
    · right; rfl
    · left; rfl

theorem calibStep_determined_sub (beta NA : ℚ) (acc : CalibAcc)
    (r : CalibRxnInput) (x : String) (hx : x ∈ acc.undetermined) :
    x ∈ (calibStep beta NA acc r).undetermined := by
  rcases calibStep_undetermined beta NA acc r with h | h <;> rw [h]
  · exact hx
  · exact List.mem_append_left _ hx

theorem foldl_calibStep_undetermined (beta NA : ℚ) (rs : List CalibRxnInput)
    (acc : CalibAcc) :
    ∃ l, (rs.foldl (calibStep beta NA) acc).undetermined =
        acc.undetermined ++ l ∧
      ∀ x ∈ l, ∃ r ∈ rs, x = kcatParamId r.reactionId := by
  induction rs generalizing acc with
  | nil => exact ⟨[], by simp, by simp⟩
  | cons r rs ih =>
      rw [List.foldl_cons]
      obtain ⟨l, hl, hmem⟩ := ih (calibStep beta NA acc r)
      rcases calibStep_undetermined beta NA acc r with h | h
      · refine ⟨l, by rw [hl, h], fun x hx => ?_⟩
        obtain ⟨r', hr', hx'⟩ := hmem x hx
        exact ⟨r', List.mem_cons_of_mem r hr', hx'⟩
      · refine ⟨kcatParamId r.reactionId :: l, by rw [hl, h]; simp,
          fun x hx => ?_⟩
        rcases List.mem_cons.mp hx with rfl | hx'
        · exact ⟨r, List.mem_cons_self r rs, rfl⟩
        · obtain ⟨r', hr', hx''⟩ := hmem x hx'
          exact ⟨r', List.mem_cons_of_mem r hr', hx''⟩

theorem foldl_calibStep_det_nonneg (beta NA : ℚ) (rs : List CalibRxnInput)
    (acc : CalibAcc) (hbeta : 0 ≤ beta) (hNA : 0 ≤ NA)
    (hin : ∀ r ∈ rs, 0 ≤ r.modifierMean ∧ 0 ≤ r.rnaMean ∧ 0 ≤ r.halfLife ∧
      (∀ s ∈ r.reactants, 0 ≤ s.mean ∧ 0 ≤ s.compartment.volumeMean) ∧
      (∀ s ∈ r.rateLawSpecies,
        (0 ≤ s.mean ∧ 0 ≤ s.compartment.density) ∧ s ∈ r.reactants))
    (hacc : ∀ x ∈ acc.determined, 0 ≤ x) :
    ∀ x ∈ (rs.foldl (calibStep beta NA) acc).determined, 0 ≤ x := by
  induction rs generalizing acc with
  | nil => exact hacc
  | cons r rs ih =>
      rw [List.foldl_cons]
      refine ih _ (fun r' h' => hin r' (List.mem_cons_of_mem r h')) ?_
      have hr := hin r (List.mem_cons_self r rs)
      simp only [calibStep]
      split
      · exact hacc
      · split
        · exact hacc
        · rename_i hev
          intro x hx
          rcases List.mem_append.mp hx with hx' | hx'
          · exact hacc x hx'
          · rw [List.mem_singleton.mp hx']
            have havg : 0 ≤ calc_avg_deg_rate r.rnaMean r.halfLife :=
              calc_avg_deg_rate_nonneg _ _ hr.2.1 hr.2.2.1
            have hevnn : 0 ≤ evalRateLaw NA
                (setValue (kmUpdates beta NA r.reactionId acc.store
                  r.reactants) (kcatParamId r.reactionId) 1) r :=
              evalRateLaw_nonneg_calib beta NA acc.store r hbeta hNA hr.1
                hr.2.2.2.1 (fun s hs => (hr.2.2.2.2 s hs).1)
                (fun s hs => (hr.2.2.2.2 s hs).2)
            exact div_nonneg havg hevnn

theorem calibPhase2_apply_ne (med : Option ℚ) (st : ParamStore)
    (und : List String) (j : String) (hj : ∀ x ∈ und, j ≠ x) :
    calibPhase2 med st und j = st j := by
  induction und generalizing st with
  | nil => rfl
  | cons i is ih =>
      simp only [calibPhase2]
      rw [ih _ (fun x hx => hj x (List.mem_cons_of_mem i hx))]
      exact setVC_apply_ne _ _ _ _ _ (hj i (List.mem_cons_self i is))

theorem calibPhase2_apply_mem (med : Option ℚ) (st : ParamStore)
    (und : List String) (j : String) (hj : j ∈ und) :
    calibPhase2 med st und j =
      (st j).map (fun _ => ⟨med, CommentTag.setToMedian⟩) := by
  induction und generalizing st with
  | nil => cases hj
  | cons i is ih =>
      simp only [calibPhase2]
      by_cases hmem : j ∈ is
      · rw [ih _ hmem]
        by_cases hij : j = i
        · subst hij
          rw [setVC_apply_self]
          cases st j <;> simp
        · rw [setVC_apply_ne _ _ _ _ _ hij]
      · have hji : j = i := by
          rcases List.mem_cons.mp hj with h | h
          · exact h
          · exact absurd h hmem
        subst hji
        rw [calibPhase2_apply_ne _ _ _ _
          (fun x hx he => hmem (by rw [he]; exact hx))]
        exact setVC_apply_self _ _ _ _

theorem medianQ_isSome (l : List ℚ) (h : l ≠ []) :
    ∃ m, medianQ l = some m := by
  have hl : ¬ l.length = 0 := by simpa using h
  simp only [medianQ, hl, if_false]
  split <;> exact ⟨_, rfl⟩

/-! ## Claim theorems -/

/-- C4: for a reaction with at least one reactant, `MM_like_rate_law`
returns a rate law whose expression is
`k_cat_<rxn> * <modifier> * T1 * ... * Tn` with one Hill term per reactant,
whose parameter list is the `k_cat` parameter followed by one `K_m`
parameter per reactant valued `beta` times that reactant's mean initial
concentration, whose species list is exactly the reactants and whose
observables list is exactly the modifier. -/
theorem C4_MM_like_rate_law_form (aid rid : String)
    (reactants : List ReactantData) (mid : String) (beta : ℚ)
    (_hne : reactants ≠ []) :
    (MM_like_rate_law aid rid reactants mid beta).1.expression =
      kcatParamId rid ++ " * " ++ mid ++ " * " ++
        String.intercalate " * " (reactants.map (fun s =>
          "(" ++ speciesGenId s ++ " / (" ++ speciesGenId s ++ " + " ++
            kmParamId rid s.speciesTypeId ++ " * " ++ aid ++ " * " ++
            s.compartment.volumeFunctionId ++ "))")) ∧
    (MM_like_rate_law aid rid reactants mid beta).1.parameters =
      ⟨kcatParamId rid, none⟩ ::
        reactants.map (fun s =>
          (⟨kmParamId rid s.speciesTypeId, some (beta * s.mean)⟩ :
            Parameter)) ∧
    (MM_like_rate_law aid rid reactants mid beta).2 =
      (MM_like_rate_law aid rid reactants mid beta).1.parameters ∧
    (MM_like_rate_law aid rid reactants mid beta).1.species =
      reactants.map speciesGenId ∧
    (MM_like_rate_law aid rid reactants mid beta).1.observables = [mid] := by
  refine ⟨?_, ?_, rfl, ?_, rfl⟩ <;>
    simp [MM_like_rate_law, MM_loop_eq, kcatParamId]

theorem C4_MM_like_rate_law_form_witness :
    ([(⟨"trans1", ⟨"c", "cytoplasm", 9, 1, "volume_c"⟩, 10⟩ : ReactantData)] ≠
      ([] : List ReactantData)) ∧
    (MM_like_rate_law "Avogadro" "degradation_trans1"
        [⟨"trans1", ⟨"c", "cytoplasm", 9, 1, "volume_c"⟩, 10⟩]
        "complex1_obs" 1).1.expression =
      "k_cat_degradation_trans1 * complex1_obs * (trans1[c] / (trans1[c] + " ++
        "K_m_degradation_trans1_trans1 * Avogadro * volume_c))" :=
  ⟨by decide, ((C4_MM_like_rate_law_form "Avogadro" "degradation_trans1"
      [⟨"trans1", ⟨"c", "cytoplasm", 9, 1, "volume_c"⟩, 10⟩]
      "complex1_obs" 1 (by decide)).1).trans (by decide)⟩

/-- C5: `clean_and_validate_options` raises `ValueError` exactly when the
`rna_exo_pair` option is absent; when it is present the call returns
normally, defaults the absent optional options (`rna_input_seq` to the
empty dict, `beta` to 1, `ribosome_occupancy_width` to 27) and leaves every
provided option value unchanged. -/
theorem C5_clean_and_validate_options (o : RnaDegOptionsIn) :
    (clean_and_validate_options o =
        Except.error "The dictionary rna_exo_pair has not been provided" ↔
      o.rna_exo_pair = none) ∧
    (∀ rep, o.rna_exo_pair = some rep →
      ∃ out, clean_and_validate_options o = Except.ok out ∧
        out.rna_exo_pair = rep ∧
        (∀ x, o.rna_input_seq = some x → out.rna_input_seq = x) ∧
        (o.rna_input_seq = none → out.rna_input_seq = []) ∧
        (∀ b, o.beta = some b → out.beta = b) ∧
        (o.beta = none → out.beta = 1) ∧
        (∀ w, o.ribosome_occupancy_width = some w →
          out.ribosome_occupancy_width = w) ∧
        (o.ribosome_occupancy_width = none →
          out.ribosome_occupancy_width = 27)) := by
  constructor
  · cases ho : o.rna_exo_pair <;> simp [clean_and_validate_options, ho]
  · intro rep hrep
    refine ⟨⟨o.rna_input_seq.getD [], o.beta.getD 1, rep,
      o.ribosome_occupancy_width.getD 27⟩,
      by simp [clean_and_validate_options, hrep], rfl, ?_, ?_, ?_, ?_, ?_, ?_⟩ <;>
      intro h <;> try intro hx
    all_goals simp_all

theorem C5_clean_and_validate_options_witness :
    ∃ out, clean_and_validate_options
        ⟨none, some 2, some [("trans1", "Exosome")], none⟩ = Except.ok out ∧
      out.rna_exo_pair = [("trans1", "Exosome")] ∧
      out.rna_input_seq = [] ∧ out.beta = 2 ∧
      out.ribosome_occupancy_width = 27 := by
  obtain ⟨out, hok, hrep, _, hseq, hb, _, _, hw⟩ :=
    (C5_clean_and_validate_options
      ⟨none, some 2, some [("trans1", "Exosome")], none⟩).2
      [("trans1", "Exosome")] rfl
  exact ⟨out, hok, hrep, hseq rfl, hb 2 rfl, hw rfl⟩

/-- C6: the claim that the generation procedures leave the knowledge base
unchanged is right about the intent (the code's own comment says the KB
"should be treated as read only") but wrong about the code:
`InitalizeModel.gen_rna` and `gen_protein` overwrite the `half_life`
attribute of every KB species type whose half-life is missing or zero with
the average of the other half-lives. -/
theorem C6_gen_rna_and_gen_protein_mutate_kb :
    gen_rna [⟨"rna1", some 36000⟩, ⟨"rna2", some 0⟩] =
      [⟨"rna1", some 36000⟩, ⟨"rna2", some 36000⟩] ∧
    gen_rna [⟨"rna1", some 36000⟩, ⟨"rna2", some 0⟩] ≠
      [⟨"rna1", some 36000⟩, ⟨"rna2", some 0⟩] ∧
    gen_protein [⟨"prot1", some 1800⟩, ⟨"prot2", none⟩] =
      [⟨"prot1", some 1800⟩, ⟨"prot2", some 1800⟩] ∧
    gen_protein [⟨"prot1", some 1800⟩, ⟨"prot2", none⟩] ≠
      [⟨"prot1", some 1800⟩, ⟨"prot2", none⟩] := by
  have h1 : validHalfLives [⟨"rna1", some 36000⟩, ⟨"rna2", some 0⟩] =
      [36000] := by
    norm_num [validHalfLives, List.filterMap_cons, List.filter_cons]
  have h2 : validHalfLives [⟨"prot1", some 1800⟩, ⟨"prot2", none⟩] =
      [1800] := by
    norm_num [validHalfLives, List.filterMap_cons, List.filter_cons]
  have m1 : meanQ [(36000 : ℚ)] = some 36000 := by norm_num [meanQ]
  have m2 : meanQ [(1800 : ℚ)] = some 1800 := by norm_num [meanQ]
  refine ⟨?_, ?_, ?_, ?_⟩ <;> simp [gen_rna, gen_protein, h1, h2, m1, m2]

/-- C8: `ProkaryoteModelGenerator` runs its component generators one after
another on the shared model state, in the default order `InitalizeModel`,
`TranscriptionSubmodelGenerator`, `RnaDegradationSubmodelGenerator`,
`TranslationSubmodelGenerator`, `ProteinDegradationSubmodelGenerator`,
`MetabolismSubmodelGenerator`. -/
theorem C8_orchestrator_sequence :
    DEFAULT_COMPONENT_GENERATORS =
      [.initalizeModel,
       .transcriptionSubmodelGenerator,
       .rnaDegradationSubmodelGenerator,
       .translationSubmodelGenerator,
       .proteinDegradationSubmodelGenerator,
       .metabolismSubmodelGenerator] ∧
    ∀ (M : Type) (effect : ComponentGenerator → M → M) (m : M),
      ModelGenerator_run effect m =
        effect .metabolismSubmodelGenerator
          (effect .proteinDegradationSubmodelGenerator
            (effect .translationSubmodelGenerator
              (effect .rnaDegradationSubmodelGenerator
                (effect .transcriptionSubmodelGenerator
                  (effect .initalizeModel m))))) :=
  ⟨rfl, fun _ _ _ => rfl⟩

/-- C2: for every transcript processed by `gen_reactions` (here from a fresh
global cache) whose effective sequence uppercases to characters among
`A`, `C`, `G`, `U` and has length at least 1, the generated degradation
reaction consumes 1 RNA molecule and `len - 1` water molecules and produces
the per-nucleotide counts of `amp`, `cmp`, `gmp`, `ump` plus `len - 1`
protons, all in the cytoplasm when the KB compartment id is `c` and in the
mitochondrion otherwise; the four nucleotide counts sum to `len`. -/
theorem C2_degradation_mass_balance (env : ModelEnv)
    (ris : List (String × List Char)) (row : Nat) (ts : List TranscriptKB)
    (hnd : (ts.map (fun t => t.id)).Nodup) (i : Nat) (h : i < ts.length)
    (_hlen : 1 ≤ (effectiveSeq ris ts[i]).length)
    (hchars : ∀ c ∈ (effectiveSeq ris ts[i]).map Char.toUpper,
      c = 'A' ∨ c = 'C' ∨ c = 'G' ∨ c = 'U') :
    (gen_reactions env ris row ts []).reactions[i]? =
      some ("degradation_" ++ ts[i].id,
        [⟨ts[i].id ++ "[" ++ degCompartment ts[i].compartmentId ++ "]", -1⟩,
         ⟨"h2o[" ++ degCompartment ts[i].compartmentId ++ "]",
           -(((effectiveSeq ris ts[i]).length : Int) - 1)⟩] ++
        (match alookup env.riboBindingSites
            (ts[i].id ++ "_ribosome_binding_site") with
          | some sid =>
              [⟨sid, -((((effectiveSeq ris ts[i]).length / row : Nat) : Int)
                + 1)⟩]
          | none => []) ++
        [⟨"amp[" ++ degCompartment ts[i].compartmentId ++ "]",
           (((effectiveSeq ris ts[i]).map Char.toUpper).count 'A' : Int)⟩,
         ⟨"cmp[" ++ degCompartment ts[i].compartmentId ++ "]",
           (((effectiveSeq ris ts[i]).map Char.toUpper).count 'C' : Int)⟩,
         ⟨"gmp[" ++ degCompartment ts[i].compartmentId ++ "]",
           (((effectiveSeq ris ts[i]).map Char.toUpper).count 'G' : Int)⟩,
         ⟨"ump[" ++ degCompartment ts[i].compartmentId ++ "]",
           (((effectiveSeq ris ts[i]).map Char.toUpper).count 'U' : Int)⟩,
         ⟨"h[" ++ degCompartment ts[i].compartmentId ++ "]",
           ((effectiveSeq ris ts[i]).length : Int) - 1⟩]) ∧
    ((effectiveSeq ris ts[i]).map Char.toUpper).count 'A' +
      ((effectiveSeq ris ts[i]).map Char.toUpper).count 'C' +
      ((effectiveSeq ris ts[i]).map Char.toUpper).count 'G' +
      ((effectiveSeq ris ts[i]).map Char.toUpper).count 'U' =
      (effectiveSeq ris ts[i]).length := by
  constructor
  · rw [gen_reactions_get_fresh env ris row ts hnd i h]
    rfl
  · rw [← List.length_map (effectiveSeq ris ts[i]) Char.toUpper]
    exact count_acgu _ hchars

theorem C2_degradation_mass_balance_witness :
    (gen_reactions ⟨[]⟩ [] 4
        [⟨"trans1", "transcript1", "c", ['A', 'C', 'G', 'U', 'U']⟩]
        []).reactions[0]? =
      some ("degradation_trans1",
        [⟨"trans1[c]", -1⟩, ⟨"h2o[c]", -4⟩, ⟨"amp[c]", 1⟩, ⟨"cmp[c]", 1⟩,
         ⟨"gmp[c]", 1⟩, ⟨"ump[c]", 2⟩, ⟨"h[c]", 4⟩]) := by
  have h := (C2_degradation_mass_balance ⟨[]⟩ [] 4
    [⟨"trans1", "transcript1", "c", ['A', 'C', 'G', 'U', 'U']⟩]
    (by decide) 0 (by decide) (by decide) (by decide)).1
  exact h.trans (by decide)

/-- C9: for every transcript processed by `gen_reactions` (from a fresh
cache), when the model contains a species type with id
`<rna_id>_ribosome_binding_site` the degradation reaction includes that
type's first species with coefficient `-(floor(len / width) + 1)`, and when
no such species type exists the reaction has no ribosome-binding-site
participant. -/
theorem C9_ribosome_binding_site_participant (env : ModelEnv)
    (ris : List (String × List Char)) (row : Nat) (ts : List TranscriptKB)
    (hnd : (ts.map (fun t => t.id)).Nodup) (i : Nat) (h : i < ts.length)
    (_hrow : 0 < row) :
    (∀ sid, alookup env.riboBindingSites
        (ts[i].id ++ "_ribosome_binding_site") = some sid →
      (gen_reactions env ris row ts []).reactions[i]? =
        some ("degradation_" ++ ts[i].id,
          [⟨ts[i].id ++ "[" ++ degCompartment ts[i].compartmentId ++ "]", -1⟩,
           ⟨"h2o[" ++ degCompartment ts[i].compartmentId ++ "]",
             -(((effectiveSeq ris ts[i]).length : Int) - 1)⟩,
           ⟨sid, -((((effectiveSeq ris ts[i]).length / row : Nat) : Int) + 1)⟩,
           ⟨"amp[" ++ degCompartment ts[i].compartmentId ++ "]",
             (countNTP (effectiveSeq ris ts[i])).A⟩,
           ⟨"cmp[" ++ degCompartment ts[i].compartmentId ++ "]",
             (countNTP (effectiveSeq ris ts[i])).C⟩,
           ⟨"gmp[" ++ degCompartment ts[i].compartmentId ++ "]",
             (countNTP (effectiveSeq ris ts[i])).G⟩,
           ⟨"ump[" ++ degCompartment ts[i].compartmentId ++ "]",
             (countNTP (effectiveSeq ris ts[i])).U⟩,
           ⟨"h[" ++ degCompartment ts[i].compartmentId ++ "]",
             ((effectiveSeq ris ts[i]).length : Int) - 1⟩])) ∧
    (alookup env.riboBindingSites
        (ts[i].id ++ "_ribosome_binding_site") = none →
      (gen_reactions env ris row ts []).reactions[i]? =
        some ("degradation_" ++ ts[i].id,
          [⟨ts[i].id ++ "[" ++ degCompartment ts[i].compartmentId ++ "]", -1⟩,
           ⟨"h2o[" ++ degCompartment ts[i].compartmentId ++ "]",
             -(((effectiveSeq ris ts[i]).length : Int) - 1)⟩,
           ⟨"amp[" ++ degCompartment ts[i].compartmentId ++ "]",
             (countNTP (effectiveSeq ris ts[i])).A⟩,
           ⟨"cmp[" ++ degCompartment ts[i].compartmentId ++ "]",
             (countNTP (effectiveSeq ris ts[i])).C⟩,
           ⟨"gmp[" ++ degCompartment ts[i].compartmentId ++ "]",
             (countNTP (effectiveSeq ris ts[i])).G⟩,
           ⟨"ump[" ++ degCompartment ts[i].compartmentId ++ "]",
             (countNTP (effectiveSeq ris ts[i])).U⟩,
           ⟨"h[" ++ degCompartment ts[i].compartmentId ++ "]",
             ((effectiveSeq ris ts[i]).length : Int) - 1⟩])) := by
  constructor
  · intro sid hsid
    rw [gen_reactions_get_fresh env ris row ts hnd i h]
    simp [genDegradationReaction, hsid, countNTP]
  · intro hnone
    rw [gen_reactions_get_fresh env ris row ts hnd i h]
    simp [genDegradationReaction, hnone, countNTP]

theorem C9_ribosome_binding_site_participant_witness :
    (gen_reactions ⟨[("trans2_ribosome_binding_site",
        "trans2_ribosome_binding_site[m]")]⟩ [] 4
        [⟨"trans2", "transcript2", "m",
          ['A', 'C', 'G', 'U', 'U', 'A', 'U', 'C', 'U', 'U']⟩]
        []).reactions[0]? =
      some ("degradation_trans2",
        [⟨"trans2[m]", -1⟩, ⟨"h2o[m]", -9⟩,
         ⟨"trans2_ribosome_binding_site[m]", -3⟩,
         ⟨"amp[m]", 2⟩, ⟨"cmp[m]", 2⟩, ⟨"gmp[m]", 1⟩, ⟨"ump[m]", 5⟩,
         ⟨"h[m]", 9⟩]) := by
  have h := (C9_ribosome_binding_site_participant
    ⟨[("trans2_ribosome_binding_site", "trans2_ribosome_binding_site[m]")]⟩
    [] 4
    [⟨"trans2", "transcript2", "m",
      ['A', 'C', 'G', 'U', 'U', 'A', 'U', 'C', 'U', 'U']⟩]
    (by decide) 0 (by decide) (by decide)).1
    "trans2_ribosome_binding_site[m]" (by decide)
  exact h.trans (by decide)

/-- C10: the global cache `gvar.transcript_ntp_usage` only grows and is
authoritative: initial entries survive unchanged; every processed RNA id has
an entry afterwards; a transcript whose id is cached at entry has its
reaction stoichiometry built from the cached counts (the option sequence and
KB sequence being ignored); a transcript whose id is uncached (under
distinct transcript ids) gets the counts of its effective sequence stored. -/
theorem C10_transcript_ntp_usage_cache (env : ModelEnv)
    (ris : List (String × List Char)) (row : Nat) (ts : List TranscriptKB)
    (cache : List (String × NTPCount)) :
    (∀ k v, alookup cache k = some v →
      alookup (gen_reactions env ris row ts cache).cache k = some v) ∧
    (∀ t ∈ ts,
      (alookup (gen_reactions env ris row ts cache).cache t.id).isSome) ∧
    (∀ i, ∀ h : i < ts.length, ∀ c, alookup cache ts[i].id = some c →
      (gen_reactions env ris row ts cache).reactions[i]? =
        some ("degradation_" ++ ts[i].id,
          genDegradationReaction env row c ts[i].id
            (degCompartment ts[i].compartmentId))) ∧
    ((ts.map (fun t => t.id)).Nodup → ∀ t ∈ ts, alookup cache t.id = none →
      alookup (gen_reactions env ris row ts cache).cache t.id =
        some (countNTP (effectiveSeq ris t))) := by
  refine ⟨fun k v hv => gen_reactions_cache_mono env ris row ts cache k v hv,
    fun t ht => gen_reactions_cache_isSome env ris row ts cache t ht,
    ?_,
    fun hnd t ht h0 =>
      gen_reactions_cache_new env ris row ts cache hnd t ht h0⟩
  intro i h c hc
  rw [gen_reactions_get env ris row ts cache i h]
  have hpre : alookup (gen_reactions env ris row (ts.take i) cache).cache
      ts[i].id = some c :=
    gen_reactions_cache_mono env ris row (ts.take i) cache ts[i].id c hc
  unfold updateCache
  rw [hpre]

theorem C10_transcript_ntp_usage_cache_witness :
    alookup (gen_reactions ⟨[]⟩ [] 4
        [⟨"trans1", "t1", "c", ['A']⟩, ⟨"trans2", "t2", "m", ['C', 'C']⟩]
        [("trans2", ⟨4, 2, 2, 7, 15⟩)]).cache "trans2" =
      some ⟨4, 2, 2, 7, 15⟩ ∧
    (gen_reactions ⟨[]⟩ [] 4
        [⟨"trans1", "t1", "c", ['A']⟩, ⟨"trans2", "t2", "m", ['C', 'C']⟩]
        [("trans2", ⟨4, 2, 2, 7, 15⟩)]).reactions[1]? =
      some ("degradation_trans2",
        [⟨"trans2[m]", -1⟩, ⟨"h2o[m]", -14⟩, ⟨"amp[m]", 4⟩, ⟨"cmp[m]", 2⟩,
         ⟨"gmp[m]", 2⟩, ⟨"ump[m]", 7⟩, ⟨"h[m]", 14⟩]) ∧
    alookup (gen_reactions ⟨[]⟩ [] 4
        [⟨"trans1", "t1", "c", ['A']⟩, ⟨"trans2", "t2", "m", ['C', 'C']⟩]
        [("trans2", ⟨4, 2, 2, 7, 15⟩)]).cache "trans1" =
      some ⟨1, 0, 0, 0, 1⟩ := by
  have h := C10_transcript_ntp_usage_cache ⟨[]⟩ [] 4
    [⟨"trans1", "t1", "c", ['A']⟩, ⟨"trans2", "t2", "m", ['C', 'C']⟩]
    [("trans2", ⟨4, 2, 2, 7, 15⟩)]
  refine ⟨h.1 "trans2" ⟨4, 2, 2, 7, 15⟩ (by decide), ?_, ?_⟩
  · exact (h.2.2.1 1 (by decide) ⟨4, 2, 2, 7, 15⟩ (by decide)).trans (by decide)
  · exact (h.2.2.2 (by decide) ⟨"trans1", "t1", "c", ['A']⟩ (by decide)
      (by decide)).trans (by decide)

/-- C7: for every reactant of a degradation reaction whose `K_m` parameter
exists (id `K_m_<rxn>_<species_type>`), `calibrate_submodel` sets that
parameter's value to `beta * mean / Avogadro / compartment volume` (with a
comment recording the assumption) when the reactant's mean initial
concentration is nonzero, and to `1e-05` with a comment that the
concentration was zero otherwise.  The id-distinctness hypothesis `hdist`
states that the `K_m` parameter ids of the submodel's reactions are
unambiguous. -/
theorem C7_km_calibration (beta NA : ℚ) (inputs : List CalibRxnInput)
    (st : ParamStore) (i : Nat) (h : i < inputs.length) (s : ReactantData)
    (hs : s ∈ inputs[i].reactants)
    (hdist : ∀ (j : Nat) (hj : j < inputs.length), ∀ s' ∈ inputs[j].reactants,
      (j ≠ i ∨ s' ≠ s) →
      kmParamId inputs[j].reactionId s'.speciesTypeId ≠
        kmParamId inputs[i].reactionId s.speciesTypeId)
    (hsome : (st (kmParamId inputs[i].reactionId s.speciesTypeId)).isSome) :
    (s.mean ≠ 0 →
      getValue (calibrate_submodel beta NA inputs st)
          (kmParamId inputs[i].reactionId s.speciesTypeId) =
        some (beta * s.mean / NA / s.compartment.volumeMean) ∧
      getComments (calibrate_submodel beta NA inputs st)
          (kmParamId inputs[i].reactionId s.speciesTypeId) =
        some (.assumedBetaTimes beta s.speciesTypeId s.compartment.name)) ∧
    (s.mean = 0 →
      getValue (calibrate_submodel beta NA inputs st)
          (kmParamId inputs[i].reactionId s.speciesTypeId) =
        some (1 / 100000) ∧
      getComments (calibrate_submodel beta NA inputs st)
          (kmParamId inputs[i].reactionId s.speciesTypeId) =
        some (.zeroConcDefault s.speciesTypeId s.compartment.name)) := by
  have hstore : (calibrate_submodel beta NA inputs st)
      (kmParamId inputs[i].reactionId s.speciesTypeId) =
      some (if s.mean = 0 then
        (⟨some (1 / 100000),
          .zeroConcDefault s.speciesTypeId s.compartment.name⟩ : ParamData)
      else
        ⟨some (beta * s.mean / NA / s.compartment.volumeMean),
          .assumedBetaTimes beta s.speciesTypeId s.compartment.name⟩) := by
    simp only [calibrate_submodel]
    rw [calibPhase2_apply_ne]
    · simp only [calibPhase1]
      rw [foldl_take_drop (calibStep beta NA) ⟨st, [], []⟩ inputs i h]
      rw [foldl_calibStep_frame]
      · have hmid : (((inputs.take i).foldl (calibStep beta NA)
            ⟨st, [], []⟩).store)
              (kmParamId inputs[i].reactionId s.speciesTypeId) =
            st (kmParamId inputs[i].reactionId s.speciesTypeId) := by
          apply foldl_calibStep_frame
          intro r' hr'
          obtain ⟨k, hk, hki, hkr⟩ := mem_take_getElem inputs i r' hr'
          constructor
          · intro s' hs' he
            exact hdist k hk s' (by rw [hkr]; exact hs')
              (Or.inl (by omega)) (by rw [hkr]; exact he.symm)
          · intro he
            exact km_ne_kcat inputs[i].reactionId s.speciesTypeId
              r'.reactionId he
        simp only [calibStep]
        have htarget : kmUpdates beta NA inputs[i].reactionId
            (((inputs.take i).foldl (calibStep beta NA) ⟨st, [], []⟩).store)
            inputs[i].reactants
            (kmParamId inputs[i].reactionId s.speciesTypeId) =
            some (if s.mean = 0 then
              (⟨some (1 / 100000),
                .zeroConcDefault s.speciesTypeId s.compartment.name⟩ :
                  ParamData)
            else
              ⟨some (beta * s.mean / NA / s.compartment.volumeMean),
                .assumedBetaTimes beta s.speciesTypeId
                  s.compartment.name⟩) := by
          apply kmUpdates_apply_target beta NA inputs[i].reactionId
            inputs[i].reactants _ s hs
            (fun s' hs' hne => hdist i h s' hs' (Or.inr hne))
          rw [hmid]
          exact hsome
        have hsv : ∀ (st' : ParamStore) (v : ℚ),
            setValue st' (kcatParamId inputs[i].reactionId) v
              (kmParamId inputs[i].reactionId s.speciesTypeId) =
            st' (kmParamId inputs[i].reactionId s.speciesTypeId) :=
          fun st' v => setValue_apply_ne st' _ _ v (km_ne_kcat _ _ _)
        split
        · exact htarget
        · split
          · dsimp only
            rw [hsv]
            exact htarget
          · dsimp only
            rw [hsv, hsv]
            exact htarget
      · intro r' hr'
        obtain ⟨k, hk, hki, hkr⟩ := mem_drop_getElem inputs (i + 1) r' hr'
        constructor
        · intro s' hs' he
          exact hdist k hk s' (by rw [hkr]; exact hs')
            (Or.inl (by omega)) (by rw [hkr]; exact he.symm)
        · intro he
          exact km_ne_kcat inputs[i].reactionId s.speciesTypeId
            r'.reactionId he
    · intro x hx
      obtain ⟨l, hl, hm⟩ := foldl_calibStep_undetermined beta NA inputs
        ⟨st, [], []⟩
      simp only [calibPhase1] at hx
      rw [hl] at hx
      simp only [List.nil_append] at hx
      obtain ⟨r', _, rfl⟩ := hm x hx
      exact km_ne_kcat _ _ _
  constructor
  · intro hm
    rw [if_neg hm] at hstore
    constructor
    · simp [getValue, hstore]
    · simp [getComments, hstore]
  · intro hm
    rw [if_pos hm] at hstore
    constructor
    · simp [getValue, hstore]
    · simp [getComments, hstore]

theorem getValue_of_apply_setValue_self (st st2 : ParamStore) (jc : String)
    (v : ℚ) (happly : st jc = setValue st2 jc v jc)
    (hsome : (st2 jc).isSome) : getValue st jc = some v := by
  obtain ⟨d, hd⟩ := Option.isSome_iff_exists.mp hsome
  simp [getValue, happly, setValue, hd]

/-- C3: in `calibrate_submodel`, a degradation reaction whose average
degradation rate is nonzero and whose rate law evaluates (at the initial
species counts, with the reaction's `K_m` values already calibrated and its
`k_cat` set to 1) to a nonzero value gets `k_cat = average rate / evaluated
rate law`; every other reaction's `k_cat` is set to the median of the
determined `k_cat` values, with a comment that it was set to the median
because it could not be determined from data.  The hypothesis `hkdist`
states that the reactions' `k_cat` parameter ids are distinct. -/
theorem C3_kcat_calibration (beta NA : ℚ) (inputs : List CalibRxnInput)
    (st : ParamStore) (i : Nat) (h : i < inputs.length)
    (hkdist : ∀ (j : Nat) (hj : j < inputs.length), j ≠ i →
      kcatParamId inputs[j].reactionId ≠ kcatParamId inputs[i].reactionId)
    (hsome : (st (kcatParamId inputs[i].reactionId)).isSome) :
    (calc_avg_deg_rate inputs[i].rnaMean inputs[i].halfLife ≠ 0 →
      rateLawEvalAt beta NA inputs st i inputs[i] ≠ 0 →
      getValue (calibrate_submodel beta NA inputs st)
          (kcatParamId inputs[i].reactionId) =
        some (calc_avg_deg_rate inputs[i].rnaMean inputs[i].halfLife /
          rateLawEvalAt beta NA inputs st i inputs[i])) ∧
    ((calc_avg_deg_rate inputs[i].rnaMean inputs[i].halfLife = 0 ∨
      rateLawEvalAt beta NA inputs st i inputs[i] = 0) →
      getValue (calibrate_submodel beta NA inputs st)
          (kcatParamId inputs[i].reactionId) =
        medianQ (calibPhase1 beta NA inputs st).determined ∧
      getComments (calibrate_submodel beta NA inputs st)
          (kcatParamId inputs[i].reactionId) =
        some CommentTag.setToMedian) := by
  have hframe_drop : ∀ r' ∈ inputs.drop (i + 1),
      (∀ s' ∈ r'.reactants, kcatParamId inputs[i].reactionId ≠
        kmParamId r'.reactionId s'.speciesTypeId) ∧
      kcatParamId inputs[i].reactionId ≠ kcatParamId r'.reactionId := by
    intro r' hr'
    obtain ⟨k, hk, hki, hkr⟩ := mem_drop_getElem inputs (i + 1) r' hr'
    constructor
    · intro s' hs' he
      exact km_ne_kcat r'.reactionId s'.speciesTypeId
        inputs[i].reactionId he.symm
    · intro he
      exact hkdist k hk (by omega) (by rw [hkr]; exact he.symm)
  have hmid_isSome : ((((inputs.take i).foldl (calibStep beta NA)
      ⟨st, [], []⟩).store) (kcatParamId inputs[i].reactionId)).isSome := by
    rw [foldl_calibStep_isSome]
    exact hsome
  have hund_take : ∀ x ∈ ((inputs.take i).foldl (calibStep beta NA)
      ⟨st, [], []⟩).undetermined, kcatParamId inputs[i].reactionId ≠ x := by
    intro x hx
    obtain ⟨l, hl, hm⟩ := foldl_calibStep_undetermined beta NA
      (inputs.take i) ⟨st, [], []⟩
    rw [hl] at hx
    simp only [List.nil_append] at hx
    obtain ⟨r', hr', rfl⟩ := hm x hx
    obtain ⟨k, hk, hki, hkr⟩ := mem_take_getElem inputs i r' hr'
    intro he
    exact hkdist k hk (by omega) (by rw [hkr]; exact he.symm)
  constructor
  · intro havg hev
    have hev' : evalRateLaw NA (setValue (kmUpdates beta NA
        inputs[i].reactionId (((inputs.take i).foldl (calibStep beta NA)
          ⟨st, [], []⟩).store) inputs[i].reactants)
        (kcatParamId inputs[i].reactionId) 1) inputs[i] ≠ 0 := by
      simpa only [rateLawEvalAt, calibPhase1] using hev
    have hstep_und : (calibStep beta NA ((inputs.take i).foldl
        (calibStep beta NA) ⟨st, [], []⟩) inputs[i]).undetermined =
        ((inputs.take i).foldl (calibStep beta NA)
          ⟨st, [], []⟩).undetermined := by
      simp only [calibStep]
      rw [if_neg havg, if_neg hev']
    have hund : ∀ x ∈ (calibPhase1 beta NA inputs st).undetermined,
        kcatParamId inputs[i].reactionId ≠ x := by
      intro x hx
      simp only [calibPhase1] at hx
      rw [foldl_take_drop (calibStep beta NA) ⟨st, [], []⟩ inputs i h] at hx
      obtain ⟨l, hl, hm⟩ := foldl_calibStep_undetermined beta NA
        (inputs.drop (i + 1)) (calibStep beta NA ((inputs.take i).foldl
          (calibStep beta NA) ⟨st, [], []⟩) inputs[i])
      rw [hl, hstep_und] at hx
      rcases List.mem_append.mp hx with hx' | hx'
      · exact hund_take x hx'
      · obtain ⟨r', hr', rfl⟩ := hm x hx'
        exact (hframe_drop r' hr').2
    have hacc_store : (calibPhase1 beta NA inputs st).store
        (kcatParamId inputs[i].reactionId) =
        setValue (setValue (kmUpdates beta NA inputs[i].reactionId
          (((inputs.take i).foldl (calibStep beta NA) ⟨st, [], []⟩).store)
          inputs[i].reactants) (kcatParamId inputs[i].reactionId) 1)
          (kcatParamId inputs[i].reactionId)
          (calc_avg_deg_rate inputs[i].rnaMean inputs[i].halfLife /
            evalRateLaw NA (setValue (kmUpdates beta NA
              inputs[i].reactionId (((inputs.take i).foldl
                (calibStep beta NA) ⟨st, [], []⟩).store)
              inputs[i].reactants) (kcatParamId inputs[i].reactionId) 1)
              inputs[i])
          (kcatParamId inputs[i].reactionId) := by
      simp only [calibPhase1]
      rw [foldl_take_drop (calibStep beta NA) ⟨st, [], []⟩ inputs i h]
      rw [foldl_calibStep_frame beta NA _ _ _ hframe_drop]
      simp only [calibStep]
      rw [if_neg havg, if_neg hev']
    have hphase2 : (calibrate_submodel beta NA inputs st)
        (kcatParamId inputs[i].reactionId) =
        (calibPhase1 beta NA inputs st).store
          (kcatParamId inputs[i].reactionId) := by
      simp only [calibrate_submodel]
      exact calibPhase2_apply_ne _ _ _ _ hund
    have hval : getValue (calibrate_submodel beta NA inputs st)
        (kcatParamId inputs[i].reactionId) =
        some (calc_avg_deg_rate inputs[i].rnaMean inputs[i].halfLife /
          evalRateLaw NA (setValue (kmUpdates beta NA inputs[i].reactionId
            (((inputs.take i).foldl (calibStep beta NA) ⟨st, [], []⟩).store)
            inputs[i].reactants) (kcatParamId inputs[i].reactionId) 1)
            inputs[i]) := by
      apply getValue_of_apply_setValue_self _ _ _ _
        (hphase2.trans hacc_store)
      rw [setValue_isSome, kmUpdates_isSome]
      exact hmid_isSome
    rw [hval]
    simp only [rateLawEvalAt, calibPhase1]
  · intro hor
    have hstep_mem : kcatParamId inputs[i].reactionId ∈
        (calibStep beta NA ((inputs.take i).foldl (calibStep beta NA)
          ⟨st, [], []⟩) inputs[i]).undetermined := by
      by_cases havg : calc_avg_deg_rate inputs[i].rnaMean
          inputs[i].halfLife = 0
      · simp only [calibStep]
        rw [if_pos havg]
        exact List.mem_append_right _ (List.mem_singleton.mpr rfl)
      · have hev : rateLawEvalAt beta NA inputs st i inputs[i] = 0 := by
          rcases hor with h' | h'
          · exact absurd h' havg
          · exact h'
        have hev' : evalRateLaw NA (setValue (kmUpdates beta NA
            inputs[i].reactionId (((inputs.take i).foldl (calibStep beta NA)
              ⟨st, [], []⟩).store) inputs[i].reactants)
            (kcatParamId inputs[i].reactionId) 1) inputs[i] = 0 := by
          simpa only [rateLawEvalAt, calibPhase1] using hev
        simp only [calibStep]
        rw [if_neg havg, if_pos hev']
        exact List.mem_append_right _ (List.mem_singleton.mpr rfl)
    have hmem : kcatParamId inputs[i].reactionId ∈
        (calibPhase1 beta NA inputs st).undetermined := by
      simp only [calibPhase1]
      rw [foldl_take_drop (calibStep beta NA) ⟨st, [], []⟩ inputs i h]
      obtain ⟨l, hl, _⟩ := foldl_calibStep_undetermined beta NA
        (inputs.drop (i + 1)) (calibStep beta NA ((inputs.take i).foldl
          (calibStep beta NA) ⟨st, [], []⟩) inputs[i])
      rw [hl]
      exact List.mem_append_left _ hstep_mem
    have hacc_isSome : (((calibPhase1 beta NA inputs st).store)
        (kcatParamId inputs[i].reactionId)).isSome := by
      simp only [calibPhase1]
      rw [foldl_calibStep_isSome]
      exact hsome
    have happly : (calibrate_submodel beta NA inputs st)
        (kcatParamId inputs[i].reactionId) =
        some ⟨medianQ (calibPhase1 beta NA inputs st).determined,
          CommentTag.setToMedian⟩ := by
      simp only [calibrate_submodel]
      rw [calibPhase2_apply_mem _ _ _ _ hmem]
      obtain ⟨d, hd⟩ := Option.isSome_iff_exists.mp hacc_isSome
      rw [hd]
      rfl
    constructor
    · simp [getValue, happly]
    · simp [getComments, happly]

theorem changed_nonneg_trans (st1 st2 st3 : ParamStore)
    (h12 : ∀ j, getValue st2 j ≠ getValue st1 j →
      ∃ w, getValue st2 j = some w ∧ 0 ≤ w)
    (h23 : ∀ j, getValue st3 j ≠ getValue st2 j →
      ∃ w, getValue st3 j = some w ∧ 0 ≤ w) :
    ∀ j, getValue st3 j ≠ getValue st1 j →
      ∃ w, getValue st3 j = some w ∧ 0 ≤ w := by
  intro j hne
  by_cases heq : getValue st3 j = getValue st2 j
  · rw [heq]
    exact h12 j (fun he => hne (heq.trans he))
  · exact h23 j heq

theorem setValue_changed_nonneg (st : ParamStore) (i : String) (v : ℚ)
    (hv : 0 ≤ v) :
    ∀ j, getValue (setValue st i v) j ≠ getValue st j →
      ∃ w, getValue (setValue st i v) j = some w ∧ 0 ≤ w := by
  intro j hne
  by_cases hji : j = i
  · subst hji
    rw [getValue_setValue_self] at hne ⊢
    cases hj : st j with
    | none => rw [hj] at hne; simp [getValue, hj] at hne
    | some d => exact ⟨v, rfl, hv⟩
  · rw [getValue_congr _ _ _ (setValue_apply_ne _ _ _ _ hji)] at hne
    exact absurd rfl hne

theorem setVC_changed_nonneg (st : ParamStore) (i : String) (w0 : ℚ)
    (c : CommentTag) (hv : 0 ≤ w0) :
    ∀ j, getValue (setVC st i (some w0) c) j ≠ getValue st j →
      ∃ w, getValue (setVC st i (some w0) c) j = some w ∧ 0 ≤ w := by
  intro j hne
  by_cases hji : j = i
  · subst hji
    rw [getValue_setVC_self] at hne ⊢
    cases hj : st j with
    | none => rw [hj] at hne; simp [getValue, hj] at hne
    | some d => exact ⟨w0, rfl, hv⟩
  · rw [getValue_congr _ _ _ (setVC_apply_ne _ _ _ _ _ hji)] at hne
    exact absurd rfl hne

theorem kmUpdates_changed_nonneg (beta NA : ℚ) (rid : String)
    (l : List ReactantData) (st : ParamStore) (hbeta : 0 ≤ beta)
    (hNA : 0 ≤ NA)
    (hl : ∀ s ∈ l, 0 ≤ s.mean ∧ 0 ≤ s.compartment.volumeMean) :
    ∀ j, getValue (kmUpdates beta NA rid st l) j ≠ getValue st j →
      ∃ w, getValue (kmUpdates beta NA rid st l) j = some w ∧ 0 ≤ w := by
  induction l generalizing st with
  | nil => intro j hne; exact absurd rfl hne
  | cons s ss ih =>
      simp only [kmUpdates]
      refine changed_nonneg_trans st _ _ ?_
        (ih _ (fun s' h' => hl s' (List.mem_cons_of_mem s h')))
      split
      · split
        · exact setVC_changed_nonneg _ _ _ _ (by norm_num)
        · exact setVC_changed_nonneg _ _ _ _
            (div_nonneg (div_nonneg (mul_nonneg hbeta
              (hl s (List.mem_cons_self s ss)).1) hNA)
              (hl s (List.mem_cons_self s ss)).2)
      · intro j hne
        exact absurd rfl hne

theorem calibStep_changed_nonneg (beta NA : ℚ) (acc : CalibAcc)
    (r : CalibRxnInput) (hbeta : 0 ≤ beta) (hNA : 0 ≤ NA)
    (hr : 0 ≤ r.modifierMean ∧ 0 ≤ r.rnaMean ∧ 0 ≤ r.halfLife ∧
      (∀ s ∈ r.reactants, 0 ≤ s.mean ∧ 0 ≤ s.compartment.volumeMean) ∧
      (∀ s ∈ r.rateLawSpecies,
        (0 ≤ s.mean ∧ 0 ≤ s.compartment.density) ∧ s ∈ r.reactants)) :
    ∀ j, getValue ((calibStep beta NA acc r).store) j ≠
        getValue acc.store j →
      ∃ w, getValue ((calibStep beta NA acc r).store) j = some w ∧
        0 ≤ w := by
  simp only [calibStep]
  split
  · dsimp only
    exact kmUpdates_changed_nonneg beta NA _ _ _ hbeta hNA hr.2.2.2.1
  · split
    · dsimp only
      exact changed_nonneg_trans _ _ _
        (kmUpdates_changed_nonneg beta NA _ _ _ hbeta hNA hr.2.2.2.1)
        (setValue_changed_nonneg _ _ _ (by norm_num))
    · dsimp only
      refine changed_nonneg_trans _ _ _
        (changed_nonneg_trans _ _ _
          (kmUpdates_changed_nonneg beta NA _ _ _ hbeta hNA hr.2.2.2.1)
          (setValue_changed_nonneg _ _ _ (by norm_num)))
        (setValue_changed_nonneg _ _ _ ?_)
      have hevnn := evalRateLaw_nonneg_calib beta NA acc.store r hbeta hNA
        hr.1 hr.2.2.2.1 (fun s hs => (hr.2.2.2.2 s hs).1)
        (fun s hs => (hr.2.2.2.2 s hs).2)
      exact div_nonneg
        (calc_avg_deg_rate_nonneg _ _ hr.2.1 hr.2.2.1) hevnn

theorem foldl_calibStep_changed_nonneg (beta NA : ℚ)
    (rs : List CalibRxnInput) (acc : CalibAcc) (hbeta : 0 ≤ beta)
    (hNA : 0 ≤ NA)
    (hin : ∀ r ∈ rs, 0 ≤ r.modifierMean ∧ 0 ≤ r.rnaMean ∧ 0 ≤ r.halfLife ∧
      (∀ s ∈ r.reactants, 0 ≤ s.mean ∧ 0 ≤ s.compartment.volumeMean) ∧
      (∀ s ∈ r.rateLawSpecies,
        (0 ≤ s.mean ∧ 0 ≤ s.compartment.density) ∧ s ∈ r.reactants)) :
    ∀ j, getValue ((rs.foldl (calibStep beta NA) acc).store) j ≠
        getValue acc.store j →
      ∃ w, getValue ((rs.foldl (calibStep beta NA) acc).store) j =
        some w ∧ 0 ≤ w := by
  induction rs generalizing acc with
  | nil => intro j hne; exact absurd rfl hne
  | cons r rs ih =>
      simp only [List.foldl_cons]
      exact changed_nonneg_trans _ _ _
        (calibStep_changed_nonneg beta NA acc r hbeta hNA
          (hin r (List.mem_cons_self r rs)))
        (ih _ (fun r' h' => hin r' (List.mem_cons_of_mem r h')))

theorem calibPhase2_changed_nonneg (m : ℚ) (hm : 0 ≤ m) (st : ParamStore)
    (und : List String) :
    ∀ j, getValue (calibPhase2 (some m) st und) j ≠ getValue st j →
      ∃ w, getValue (calibPhase2 (some m) st und) j = some w ∧ 0 ≤ w := by
  induction und generalizing st with
  | nil => intro j hne; exact absurd rfl hne
  | cons i is ih =>
      simp only [calibPhase2]
      exact changed_nonneg_trans _ _ _
        (setVC_changed_nonneg _ _ m _ hm) (ih _)

/-- C1 (amended): under the preconditions that all species mean initial
concentrations are non-negative, all half-lives are positive, all
compartment mean volumes and densities are positive, and additionally that
the `beta` option is non-negative and that at least one reaction's `k_cat`
was determined from data (so that the median is over a nonempty list),
every parameter value changed by `calibrate_submodel` — the `K_m`
assignments, the determined `k_cat` assignments and the `k_cat` values set
by the median fallback — ends up `some v` with `v ≥ 0`. -/
theorem C1_calibrated_constants_nonneg (beta NA : ℚ)
    (inputs : List CalibRxnInput) (st : ParamStore) (hbeta : 0 ≤ beta)
    (hNA : 0 < NA)
    (hin : ∀ r ∈ inputs, 0 ≤ r.modifierMean ∧ 0 ≤ r.rnaMean ∧
      0 < r.halfLife ∧
      (∀ s ∈ r.reactants, 0 ≤ s.mean ∧ 0 < s.compartment.volumeMean ∧
        0 < s.compartment.density) ∧
      (∀ s ∈ r.rateLawSpecies, s ∈ r.reactants))
    (hdet : (calibPhase1 beta NA inputs st).determined ≠ []) :
    ∀ j, getValue (calibrate_submodel beta NA inputs st) j ≠
        getValue st j →
      ∃ v, getValue (calibrate_submodel beta NA inputs st) j = some v ∧
        0 ≤ v := by
  have hNA' : (0 : ℚ) ≤ NA := le_of_lt hNA
  have hin' : ∀ r ∈ inputs, 0 ≤ r.modifierMean ∧ 0 ≤ r.rnaMean ∧
      0 ≤ r.halfLife ∧
      (∀ s ∈ r.reactants, 0 ≤ s.mean ∧ 0 ≤ s.compartment.volumeMean) ∧
      (∀ s ∈ r.rateLawSpecies,
        (0 ≤ s.mean ∧ 0 ≤ s.compartment.density) ∧ s ∈ r.reactants) := by
    intro r hr
    obtain ⟨h1, h2, h3, h4, h5⟩ := hin r hr
    refine ⟨h1, h2, le_of_lt h3,
      fun s hs => ⟨(h4 s hs).1, le_of_lt (h4 s hs).2.1⟩, fun s hs => ?_⟩
    have hmem := h5 s hs
    exact ⟨⟨(h4 s hmem).1, le_of_lt (h4 s hmem).2.2⟩, hmem⟩
  obtain ⟨m, hmQ⟩ := medianQ_isSome _ hdet
  have hdetnn : ∀ x ∈ (calibPhase1 beta NA inputs st).determined,
      0 ≤ x := by
    simp only [calibPhase1]
    exact foldl_calibStep_det_nonneg beta NA inputs ⟨st, [], []⟩ hbeta hNA'
      hin' (by intro x hx; cases hx)
  have hm : 0 ≤ m := medianQ_nonneg _ hdetnn m hmQ
  simp only [calibrate_submodel]
  rw [hmQ]
  exact changed_nonneg_trans st ((calibPhase1 beta NA inputs st).store) _
    (by
      simp only [calibPhase1]
      exact foldl_calibStep_changed_nonneg beta NA inputs ⟨st, [], []⟩
        hbeta hNA' hin')
    (calibPhase2_changed_nonneg m hm _ _)

/-- C1 counterexample: with a negative `beta` option, all the claim's
stated preconditions hold (non-negative mean concentrations, positive
half-life, positive compartment volume and density), yet
`calibrate_submodel` assigns the `K_m` parameter the negative value `-5`
(`beta * mean / Avogadro / volume = -1 * 10 / 2 / 1`). -/
theorem C1_negative_beta_counterexample :
    (∀ r ∈ [(⟨"degradation_trans1", 100, 10, 36000,
        [⟨"trans1", ⟨"c", "cytoplasm", 1, 1, "volume_c"⟩, 10⟩],
        [⟨"trans1", ⟨"c", "cytoplasm", 1, 1, "volume_c"⟩, 10⟩]⟩ :
          CalibRxnInput)],
      0 ≤ r.modifierMean ∧ 0 ≤ r.rnaMean ∧ 0 < r.halfLife ∧
      (∀ s ∈ r.reactants, 0 ≤ s.mean ∧ 0 < s.compartment.volumeMean ∧
        0 < s.compartment.density) ∧
      (∀ s ∈ r.rateLawSpecies, s ∈ r.reactants)) ∧
    getValue (calibrate_submodel (-1) 2
      [⟨"degradation_trans1", 100, 10, 36000,
        [⟨"trans1", ⟨"c", "cytoplasm", 1, 1, "volume_c"⟩, 10⟩],
        [⟨"trans1", ⟨"c", "cytoplasm", 1, 1, "volume_c"⟩, 10⟩]⟩]
      (fun j => if j = "K_m_degradation_trans1_trans1" then
          some ⟨some 1, CommentTag.empty⟩
        else if j = "k_cat_degradation_trans1" then
          some ⟨none, CommentTag.empty⟩
        else none)) "K_m_degradation_trans1_trans1" = some (-5) ∧
    ((-5 : ℚ) < 0) := by
  refine ⟨?_, ?_, by norm_num⟩
  · intro r hr
    rw [List.mem_singleton.mp hr]
    refine ⟨by norm_num, by norm_num, by norm_num, ?_, ?_⟩
    · intro s hs
      rw [List.mem_singleton.mp hs]
      norm_num
    · intro s hs
      exact hs
  · have e1 : kmParamId "degradation_trans1" "trans1" =
        "K_m_degradation_trans1_trans1" := rfl
    have e2 : kcatParamId "degradation_trans1" =
        "k_cat_degradation_trans1" := rfl
    have sne1 : ("k_cat_degradation_trans1" =
        "K_m_degradation_trans1_trans1") = False := eq_false (by decide)
    have sne2 : ("K_m_degradation_trans1_trans1" =
        "k_cat_degradation_trans1") = False := eq_false (by decide)
    norm_num [calibrate_submodel, calibPhase1, calibStep, kmUpdates,
      e1, e2, sne1, sne2, evalRateLaw, calc_avg_deg_rate, ln2,
      setValue, setVC, getValue, calibPhase2, medianQ]

theorem C1_calibrated_constants_nonneg_witness :
    (calibPhase1 1 2
      [⟨"degradation_trans1", 100, 10, 36000,
        [⟨"trans1", ⟨"c", "cytoplasm", 1, 1, "volume_c"⟩, 10⟩],
        [⟨"trans1", ⟨"c", "cytoplasm", 1, 1, "volume_c"⟩, 10⟩]⟩]
      (fun j => if j = "K_m_degradation_trans1_trans1" then
          some ⟨some 1, CommentTag.empty⟩
        else if j = "k_cat_degradation_trans1" then
          some ⟨none, CommentTag.empty⟩
        else none)).determined ≠ [] ∧
    ∀ j, getValue (calibrate_submodel 1 2
        [⟨"degradation_trans1", 100, 10, 36000,
          [⟨"trans1", ⟨"c", "cytoplasm", 1, 1, "volume_c"⟩, 10⟩],
          [⟨"trans1", ⟨"c", "cytoplasm", 1, 1, "volume_c"⟩, 10⟩]⟩]
        (fun j => if j = "K_m_degradation_trans1_trans1" then
            some ⟨some 1, CommentTag.empty⟩
          else if j = "k_cat_degradation_trans1" then
            some ⟨none, CommentTag.empty⟩
          else none)) j ≠
      getValue (fun j => if j = "K_m_degradation_trans1_trans1" then
          some ⟨some 1, CommentTag.empty⟩
        else if j = "k_cat_degradation_trans1" then
          some ⟨none, CommentTag.empty⟩
        else none) j →
      ∃ v, getValue (calibrate_submodel 1 2
        [⟨"degradation_trans1", 100, 10, 36000,
          [⟨"trans1", ⟨"c", "cytoplasm", 1, 1, "volume_c"⟩, 10⟩],
          [⟨"trans1", ⟨"c", "cytoplasm", 1, 1, "volume_c"⟩, 10⟩]⟩]
        (fun j => if j = "K_m_degradation_trans1_trans1" then
            some ⟨some 1, CommentTag.empty⟩
          else if j = "k_cat_degradation_trans1" then
            some ⟨none, CommentTag.empty⟩
          else none)) j = some v ∧ 0 ≤ v := by
  have e1 : kmParamId "degradation_trans1" "trans1" =
      "K_m_degradation_trans1_trans1" := rfl
  have e2 : kcatParamId "degradation_trans1" =
      "k_cat_degradation_trans1" := rfl
  have sne1 : ("k_cat_degradation_trans1" =
      "K_m_degradation_trans1_trans1") = False := eq_false (by decide)
  have sne2 : ("K_m_degradation_trans1_trans1" =
      "k_cat_degradation_trans1") = False := eq_false (by decide)
  have hdet : (calibPhase1 1 2
      [⟨"degradation_trans1", 100, 10, 36000,
        [⟨"trans1", ⟨"c", "cytoplasm", 1, 1, "volume_c"⟩, 10⟩],
        [⟨"trans1", ⟨"c", "cytoplasm", 1, 1, "volume_c"⟩, 10⟩]⟩]
      (fun j => if j = "K_m_degradation_trans1_trans1" then
          some ⟨some 1, CommentTag.empty⟩
        else if j = "k_cat_degradation_trans1" then
          some ⟨none, CommentTag.empty⟩
        else none)).determined ≠ [] := by
    norm_num [calibPhase1, calibStep, kmUpdates, e1, e2, sne1, sne2,
      evalRateLaw, calc_avg_deg_rate, ln2, setValue, setVC, getValue]
  refine ⟨hdet, C1_calibrated_constants_nonneg 1 2 _ _ (by norm_num)
    (by norm_num) ?_ hdet⟩
  intro r hr
  rw [List.mem_singleton.mp hr]
  refine ⟨by norm_num, by norm_num, by norm_num, ?_, ?_⟩
  · intro s hs
    rw [List.mem_singleton.mp hs]
    norm_num
  · intro s hs
    exact hs

theorem C3_kcat_calibration_witness :
    getValue (calibrate_submodel 1 2
        [⟨"degradation_trans1", 100, 10, 36000,
          [⟨"trans1", ⟨"c", "cytoplasm", 1, 1, "volume_c"⟩, 10⟩],
          [⟨"trans1", ⟨"c", "cytoplasm", 1, 1, "volume_c"⟩, 10⟩]⟩]
        (fun j => if j = "K_m_degradation_trans1_trans1" then
            some ⟨some 1, CommentTag.empty⟩
          else if j = "k_cat_degradation_trans1" then
            some ⟨none, CommentTag.empty⟩
          else none)) (kcatParamId "degradation_trans1") =
      some (calc_avg_deg_rate 10 36000 /
        rateLawEvalAt 1 2
          [⟨"degradation_trans1", 100, 10, 36000,
            [⟨"trans1", ⟨"c", "cytoplasm", 1, 1, "volume_c"⟩, 10⟩],
            [⟨"trans1", ⟨"c", "cytoplasm", 1, 1, "volume_c"⟩, 10⟩]⟩]
          (fun j => if j = "K_m_degradation_trans1_trans1" then
              some ⟨some 1, CommentTag.empty⟩
            else if j = "k_cat_degradation_trans1" then
              some ⟨none, CommentTag.empty⟩
            else none) 0
          ⟨"degradation_trans1", 100, 10, 36000,
            [⟨"trans1", ⟨"c", "cytoplasm", 1, 1, "volume_c"⟩, 10⟩],
            [⟨"trans1", ⟨"c", "cytoplasm", 1, 1, "volume_c"⟩, 10⟩]⟩) := by
  have e1 : kmParamId "degradation_trans1" "trans1" =
      "K_m_degradation_trans1_trans1" := rfl
  have e2 : kcatParamId "degradation_trans1" =
      "k_cat_degradation_trans1" := rfl
  have sne1 : ("k_cat_degradation_trans1" =
      "K_m_degradation_trans1_trans1") = False := eq_false (by decide)
  have sne2 : ("K_m_degradation_trans1_trans1" =
      "k_cat_degradation_trans1") = False := eq_false (by decide)
  have havg : calc_avg_deg_rate 10 36000 ≠ (0 : ℚ) := by
    norm_num [calc_avg_deg_rate, ln2]
  have hev : rateLawEvalAt 1 2
      [⟨"degradation_trans1", 100, 10, 36000,
        [⟨"trans1", ⟨"c", "cytoplasm", 1, 1, "volume_c"⟩, 10⟩],
        [⟨"trans1", ⟨"c", "cytoplasm", 1, 1, "volume_c"⟩, 10⟩]⟩]
      (fun j => if j = "K_m_degradation_trans1_trans1" then
          some ⟨some 1, CommentTag.empty⟩
        else if j = "k_cat_degradation_trans1" then
          some ⟨none, CommentTag.empty⟩
        else none) 0
      ⟨"degradation_trans1", 100, 10, 36000,
        [⟨"trans1", ⟨"c", "cytoplasm", 1, 1, "volume_c"⟩, 10⟩],
        [⟨"trans1", ⟨"c", "cytoplasm", 1, 1, "volume_c"⟩, 10⟩]⟩ ≠ 0 := by
    norm_num [rateLawEvalAt, calibPhase1, kmUpdates, evalRateLaw,
      e1, e2, sne1, sne2, setValue, setVC, getValue]
  exact (C3_kcat_calibration 1 2
    [⟨"degradation_trans1", 100, 10, 36000,
      [⟨"trans1", ⟨"c", "cytoplasm", 1, 1, "volume_c"⟩, 10⟩],
      [⟨"trans1", ⟨"c", "cytoplasm", 1, 1, "volume_c"⟩, 10⟩]⟩]
    (fun j => if j = "K_m_degradation_trans1_trans1" then
        some ⟨some 1, CommentTag.empty⟩
      else if j = "k_cat_degradation_trans1" then
        some ⟨none, CommentTag.empty⟩
      else none) 0 (by norm_num)
    (by intro j hj hne; simp at hj; omega) (by decide)).1 havg hev

theorem C7_km_calibration_witness :
    getValue (calibrate_submodel 1 2
        [⟨"degradation_trans1", 100, 10, 36000,
          [⟨"trans1", ⟨"c", "cytoplasm", 1, 1, "volume_c"⟩, 10⟩],
          [⟨"trans1", ⟨"c", "cytoplasm", 1, 1, "volume_c"⟩, 10⟩]⟩]
        (fun j => if j = "K_m_degradation_trans1_trans1" then
            some ⟨some 1, CommentTag.empty⟩
          else if j = "k_cat_degradation_trans1" then
            some ⟨none, CommentTag.empty⟩
          else none)) (kmParamId "degradation_trans1" "trans1") =
      some (1 * 10 / 2 / 1) ∧
    getComments (calibrate_submodel 1 2
        [⟨"degradation_trans1", 100, 10, 36000,
          [⟨"trans1", ⟨"c", "cytoplasm", 1, 1, "volume_c"⟩, 10⟩],
          [⟨"trans1", ⟨"c", "cytoplasm", 1, 1, "volume_c"⟩, 10⟩]⟩]
        (fun j => if j = "K_m_degradation_trans1_trans1" then
            some ⟨some 1, CommentTag.empty⟩
          else if j = "k_cat_degradation_trans1" then
            some ⟨none, CommentTag.empty⟩
          else none)) (kmParamId "degradation_trans1" "trans1") =
      some (.assumedBetaTimes 1 "trans1" "cytoplasm") := by
  have h := (C7_km_calibration 1 2
    [⟨"degradation_trans1", 100, 10, 36000,
      [⟨"trans1", ⟨"c", "cytoplasm", 1, 1, "volume_c"⟩, 10⟩],
      [⟨"trans1", ⟨"c", "cytoplasm", 1, 1, "volume_c"⟩, 10⟩]⟩]
    (fun j => if j = "K_m_degradation_trans1_trans1" then
        some ⟨some 1, CommentTag.empty⟩
      else if j = "k_cat_degradation_trans1" then
        some ⟨none, CommentTag.empty⟩
      else none) 0 (by norm_num)
    ⟨"trans1", ⟨"c", "cytoplasm", 1, 1, "volume_c"⟩, 10⟩
    (List.mem_singleton.mpr rfl) ?_ (by decide)).1 (by norm_num)
  · exact h
  · intro j hj s' hs' hor
    have hj0 : j = 0 := by simp at hj; omega
    subst hj0
    rcases hor with h' | h'
    · exact absurd rfl h'
    · exact absurd (List.mem_singleton.mp hs') h'
